import Mathlib

/-!
Verification development for the vmf_generator path/segment layout engine
(`src/core/path_generator.py`, `src/core/path_types.py`, `src/vmf/brushes.py`).

The Python code is shallowly embedded: floats become rationals, the ambient
`random` module becomes an explicit stream-consuming state (`RNG`), the
trigonometric functions `math.cos (math.radians ·)` / `math.sin (math.radians ·)`
become an abstract oracle (`Trig`) constrained by the properties the code
relies on (value at zero, absolute value at most one), and the unbounded
`while` loops become fuel-indexed recursion whose partial runs agree with the
Python loop after the same number of iterations.
-/

set_option maxRecDepth 8000

namespace VmfGen

/-- 3D coordinate triple, modelling a Python `(x, y, z)` float tuple. -/
abbrev Vec3 := ℚ × ℚ × ℚ

/-- Index into a coordinate triple, modelling Python list indexing `pos[i]`. -/
def vget (v : Vec3) : ℕ → ℚ
  | 0 => v.1
  | 1 => v.2.1
  | _ => v.2.2

/-- Functional update of one coordinate, modelling `pos[i] = q`. -/
def vset (v : Vec3) : ℕ → ℚ → Vec3
  | 0, q => (q, v.2.1, v.2.2)
  | 1, q => (v.1, q, v.2.2)
  | _, q => (v.1, v.2.1, q)

/-- Python's built-in `round` on rationals: round to nearest, ties to even. -/
def pyRound (q : ℚ) : ℤ :=
  let f := ⌊q⌋
  let frac := q - (f : ℚ)
  if frac < 1/2 then f
  else if 1/2 < frac then f + 1
  else if f % 2 = 0 then f else f + 1

/-- `PathGenerator.snap_to_grid`: `round(value / grid_size) * grid_size`. -/
def snap_to_grid (grid : ℚ) (value : ℚ) : ℚ :=
  (pyRound (value / grid) : ℚ) * grid

/-- `max(lst, default=d)` from Python: the default is returned only when the
list is empty, otherwise the genuine maximum of the elements. -/
def pyMaxD (l : List ℚ) (d : ℚ) : ℚ :=
  match l with
  | [] => d
  | x :: xs => xs.foldl max x

/-- Abstract trigonometric oracle standing for the composite
`math.cos (math.radians θ)` / `math.sin (math.radians θ)` with `θ` in degrees.
Only the properties recorded here are used by the code paths under study. -/
structure Trig where
  cosd : ℚ → ℚ
  sind : ℚ → ℚ
  cosd_zero : cosd 0 = 1
  sind_zero : sind 0 = 0
  abs_cosd_le : ∀ x, |cosd x| ≤ 1
  abs_sind_le : ∀ x, |sind x| ≤ 1

/-- A degenerate oracle (valid for the recorded constraints); theorems are
instantiated with it only at rotation angle zero, where the constraints pin
the oracle's value. -/
def constTrig : Trig where
  cosd := fun _ => 1
  sind := fun _ => 0
  cosd_zero := rfl
  sind_zero := rfl
  abs_cosd_le := fun _ => by norm_num
  abs_sind_le := fun _ => by norm_num

/-- `vmf.brushes.Solid`: a placed box brush. Only the data the placement
engine reads (id, minimum corner, size, Z rotation) is modelled; the six faces
are derived data consumed by the out-of-scope emitter. -/
structure Solid where
  id : ℕ
  pos : Vec3
  size : Vec3
  rotation_z : ℚ
deriving DecidableEq

/-- Axis-aligned planar bounds `(min_x, min_y, max_x, max_y)` as returned by
`Solid.get_rotated_bounds`. -/
structure Bounds where
  min_x : ℚ
  min_y : ℚ
  max_x : ℚ
  max_y : ℚ
deriving DecidableEq

/-- `Solid.get_rotated_bounds`: min/max extents of the four top-face corners
after the rotation about the box centre applied by `Solid._rotate_z`.
(`_rotate_z` runs only when `rotation_z ≠ 0`; since the oracle satisfies
`cosd 0 = 1` and `sind 0 = 0`, applying the rotation formula unconditionally
is extensionally the same.) -/
def Solid.get_rotated_bounds (T : Trig) (s : Solid) : Bounds :=
  let x := s.pos.1
  let y := s.pos.2.1
  let w := s.size.1
  let l := s.size.2.1
  let cx := x + w / 2
  let cy := y + l / 2
  let c := T.cosd s.rotation_z
  let sn := T.sind s.rotation_z
  let rx := fun (vx vy : ℚ) => (vx - cx) * c - (vy - cy) * sn + cx
  let ry := fun (vx vy : ℚ) => (vx - cx) * sn + (vy - cy) * c + cy
  { min_x := min (min (rx x (y + l)) (rx (x + w) (y + l))) (min (rx (x + w) y) (rx x y))
    min_y := min (min (ry x (y + l)) (ry (x + w) (y + l))) (min (ry (x + w) y) (ry x y))
    max_x := max (max (rx x (y + l)) (rx (x + w) (y + l))) (max (rx (x + w) y) (rx x y))
    max_y := max (max (ry x (y + l)) (ry (x + w) (y + l))) (max (ry (x + w) y) (ry x y)) }

/-- The bounds `PathGenerator._check_collision` uses for one solid: rotated
solids contribute their rotated extents, unrotated ones their raw corners. -/
def solidAABB (T : Trig) (s : Solid) : Bounds :=
  if s.rotation_z ≠ 0 then s.get_rotated_bounds T
  else
    { min_x := s.pos.1, min_y := s.pos.2.1
      max_x := s.pos.1 + s.size.1, max_y := s.pos.2.1 + s.size.2.1 }

/-- The pairwise test from the loop body of `PathGenerator._check_collision`:
rotation-aware AABB overlap on X and Y, raw height interval overlap on Z. -/
def solidsCollide (T : Trig) (a b : Solid) : Bool :=
  let A := solidAABB T a
  let B := solidAABB T b
  decide ((A.min_x < B.max_x ∧ A.max_x > B.min_x) ∧
          (A.min_y < B.max_y ∧ A.max_y > B.min_y) ∧
          (a.pos.2.2 < b.pos.2.2 + b.size.2.2 ∧ a.pos.2.2 + a.size.2.2 > b.pos.2.2))

/-- `PathGenerator._check_collision`: the candidate (wrapped in a temporary
solid with id 9999, exactly as the Python code does) against every existing
solid. -/
def check_collision (T : Trig) (pos size : Vec3) (existing : List Solid)
    (rotation_z : ℚ) : Bool :=
  existing.any fun s => solidsCollide T ⟨9999, pos, size, rotation_z⟩ s

/-! ### The random source

`random.random()` draws are modelled as an explicit stream of rationals with a
cursor; every primitive the code calls (`uniform`, `randint`, `choice`)
consumes exactly one stream element.  Distribution-level properties only need
each element to lie in `[0, 1)`, recorded by `RNG.Valid`. -/

structure RNG where
  stream : ℕ → ℚ
  idx : ℕ

/-- Draw one raw value, advancing the cursor: models `random.random()`. -/
def RNG.next (r : RNG) : ℚ × RNG :=
  (r.stream r.idx, ⟨r.stream, r.idx + 1⟩)

/-- The stream produces values in `[0, 1)`, like `random.random()`. -/
def RNG.Valid (r : RNG) : Prop := ∀ n, 0 ≤ r.stream n ∧ r.stream n < 1

/-- `random.uniform(a, b) = a + (b - a) * random.random()`. -/
def pyUniform (a b : ℚ) (r : RNG) : ℚ × RNG :=
  (a + (b - a) * (r.next).1, (r.next).2)

/-- `random.randint(a, b)`: an integer in `[a, b]` inclusive, derived here
from one stream draw (the clamp keeps the result in range for any stream). -/
def pyRandint (a b : ℕ) (r : RNG) : ℕ × RNG :=
  (a + min (b - a) (⌊(r.next).1 * ((b : ℚ) - (a : ℚ) + 1)⌋.toNat), (r.next).2)

/-- `random.choice(l)`: a uniformly chosen element, derived from one stream
draw; the index clamp keeps it a genuine element for any stream, and `d` is
only returned for an empty list. -/
def pyChoice {α : Type} (l : List α) (d : α) (r : RNG) : α × RNG :=
  (l.getD (min (l.length - 1) (⌊(r.next).1 * (l.length : ℚ)⌋.toNat)) d, (r.next).2)

/-! ### Generator configuration -/

/-- `RotationMode` from `path_generator.py`. -/
inductive RotationMode
  | noRotation
  | priorityStraight
  | fullRandom
deriving DecidableEq

/-- One enabled shape from the shape manager; only the size multiplier is
consumed by the placement engine. -/
structure Shape where
  size_multiplier : ℚ × ℚ
deriving DecidableEq

/-- `SegmentDirection` from `path_types.py`. -/
inductive SegmentDirection
  | forward
  | right
  | left
  | back
deriving DecidableEq

/-- `PathPattern` from `path_types.py`. -/
inductive PathPattern
  | straight
  | right_turn
  | left_turn
  | s_curve
  | zigzag
  | custom
deriving DecidableEq

/-- `PathSegment` from `path_types.py`. -/
structure PathSegment where
  direction : SegmentDirection
  length : ℚ
  width : ℚ
  blocks : ℕ
  start_pos : Vec3 := (0, 0, 0)
  end_pos : Vec3 := (0, 0, 0)
deriving DecidableEq

/-- `PathSegment.calculate_end_pos`. -/
def PathSegment.calculate_end_pos (seg : PathSegment) : PathSegment :=
  let x := seg.start_pos.1
  let y := seg.start_pos.2.1
  let z := seg.start_pos.2.2
  { seg with
    end_pos :=
      match seg.direction with
      | .forward => (x, y + seg.length, z)
      | .right => (x + seg.length, y, z)
      | .left => (x - seg.length, y, z)
      | .back => (x, y - seg.length, z) }

/-- `PathSegment.is_position_in_corridor`. -/
def PathSegment.is_position_in_corridor (seg : PathSegment) (pos blockSize : Vec3) :
    Bool :=
  let bx := pos.1
  let byv := pos.2.1
  let bw := blockSize.1
  let bl := blockSize.2.1
  let sx := seg.start_pos.1
  let sy := seg.start_pos.2.1
  let ex := seg.end_pos.1
  let ey := seg.end_pos.2.1
  let half_width := seg.width / 2
  match seg.direction with
  | .forward =>
      decide ((sy ≤ byv ∧ byv + bl ≤ ey) ∧ (sx - half_width ≤ bx ∧ bx + bw ≤ sx + half_width))
  | .right =>
      decide ((sx ≤ bx ∧ bx + bw ≤ ex) ∧ (sy - half_width ≤ byv ∧ byv + bl ≤ sy + half_width))
  | .left =>
      decide ((ex ≤ bx ∧ bx + bw ≤ sx) ∧ (sy - half_width ≤ byv ∧ byv + bl ≤ sy + half_width))
  | .back =>
      decide ((ey ≤ byv ∧ byv + bl ≤ sy) ∧ (sx - half_width ≤ bx ∧ bx + bw ≤ sx + half_width))

/-- `create_pattern` from `path_types.py`.  Note Python's `segment_length // 2`
(float floor division) in the zigzag case. -/
def create_pattern (pattern : PathPattern) (total_blocks : ℕ) (segment_length : ℚ)
    (corridor_width : ℚ) : List PathSegment :=
  match pattern with
  | .straight =>
      [{ direction := .forward, length := segment_length * 3, width := corridor_width,
         blocks := total_blocks }]
  | .right_turn =>
      [{ direction := .forward, length := segment_length, width := corridor_width,
         blocks := total_blocks / 2 },
       { direction := .right, length := segment_length, width := corridor_width,
         blocks := total_blocks / 2 }]
  | .left_turn =>
      [{ direction := .forward, length := segment_length, width := corridor_width,
         blocks := total_blocks / 2 },
       { direction := .left, length := segment_length, width := corridor_width,
         blocks := total_blocks / 2 }]
  | .s_curve =>
      [{ direction := .forward, length := segment_length, width := corridor_width,
         blocks := total_blocks / 3 },
       { direction := .right, length := segment_length, width := corridor_width,
         blocks := total_blocks / 3 },
       { direction := .forward, length := segment_length, width := corridor_width,
         blocks := total_blocks / 3 }]
  | .zigzag =>
      [{ direction := .forward, length := segment_length, width := corridor_width,
         blocks := total_blocks / 4 },
       { direction := .right, length := (⌊segment_length / 2⌋ : ℚ), width := corridor_width,
         blocks := total_blocks / 4 },
       { direction := .left, length := (⌊segment_length / 2⌋ : ℚ), width := corridor_width,
         blocks := total_blocks / 4 },
       { direction := .forward, length := segment_length, width := corridor_width,
         blocks := total_blocks / 4 }]
  | .custom => []

/-- `PathGenerator.BLOCK_SIZES`. -/
def BLOCK_SIZES : List (String × Vec3) :=
  [("small", (64, 64, 32)),
   ("medium", (96, 96, 32)),
   ("large", (128, 128, 32)),
   ("long", (128, 256, 32)),
   ("wide", (192, 128, 32))]

/-- Dictionary lookup `BLOCK_SIZES[name]`; totalised with a zero default that
is unreachable for the validated name lists the engine stores. -/
def blockSizeOf (name : String) : Vec3 :=
  (BLOCK_SIZES.lookup name).getD (0, 0, 0)

/-- `PathGenerator.set_block_types`: keep only recognised names, and retain
the previous configuration when nothing survives the filter. -/
def set_block_types (current : List String) (types : List String) : List String :=
  let valid_types := types.filter fun t => (BLOCK_SIZES.lookup t).isSome
  if valid_types ≠ [] then valid_types else current

/-- The generator's configuration fields (the `PathGenerator` instance
attributes read by the generation methods). -/
structure Config where
  start_pos : Vec3 := (0, 0, 0)
  block_count : ℕ := 10
  spacing : ℚ := 150
  path_width : ℚ := 512
  segment_length : ℚ := 800
  max_blocks_per_row : ℕ := 3
  block_types : List String := ["medium", "large"]
  randomize_sizes : Bool := true
  randomize_positions : Bool := true
  grid_size : ℚ := 32
  path_pattern : PathPattern := .straight
  segments : List PathSegment := []
  rotation_mode : RotationMode := .noRotation
  shapes : List Shape := []

/-- Python `int()` truncation toward zero, used on shape-multiplied sizes. -/
def truncInt (q : ℚ) : ℤ :=
  if q < 0 then ⌈q⌉ else ⌊q⌋

/-- `PathGenerator._get_block_size_from_shapes` (with the enabled-shape list
already extracted; the engine only calls this when it is non-empty). -/
def get_block_size_from_shapes (shapes : List Shape) (r : RNG) : Vec3 × RNG :=
  if shapes = [] then ((96, 96, 32), r)
  else
    let pick := pyChoice shapes ⟨(1, 1)⟩ r
    (((truncInt (96 * pick.1.size_multiplier.1) : ℚ),
      (truncInt (96 * pick.1.size_multiplier.2) : ℚ), 32), pick.2)

/-- The size-selection block shared by both generation loops
(`path_generator.py` lines 218-227 and 374-383). -/
def selectBlockSize (cfg : Config) (r : RNG) : Vec3 × RNG :=
  if cfg.shapes ≠ [] then get_block_size_from_shapes cfg.shapes r
  else if cfg.randomize_sizes then
    let pick := pyChoice cfg.block_types "medium" r
    (blockSizeOf pick.1, pick.2)
  else (blockSizeOf (cfg.block_types.headD "medium"), r)

/-- The sizes the engine can draw for a given configuration. -/
def candidateSizes (cfg : Config) : List Vec3 :=
  if cfg.shapes ≠ [] then
    cfg.shapes.map fun sh =>
      ((truncInt (96 * sh.size_multiplier.1) : ℚ), (truncInt (96 * sh.size_multiplier.2) : ℚ), 32)
  else cfg.block_types.map blockSizeOf

/-- `PathGenerator._get_rotation_angle`. -/
def get_rotation_angle (mode : RotationMode) (r : RNG) : ℚ × RNG :=
  match mode with
  | .noRotation => (0, r)
  | .priorityStraight =>
      let t := r.next
      if t.1 < 4/5 then (0, t.2) else pyUniform (-45) 45 t.2
  | .fullRandom => pyUniform (-45) 45 r

/-! ### Flat mode: `PathGenerator.generate_straight_line` -/

/-- Loop state of `generate_straight_line`. -/
structure FlatState where
  solids : List Solid
  current_y : ℚ
  blocks_generated : ℕ
  current_row_blocks : ℕ
  blocks_in_current_row : ℕ
  rng : RNG

/-- Candidate X before snapping (`generate_straight_line` lines 229-236):
randomised within the band only when position randomisation is on and at
least one block has already been generated in this call. -/
def flatCandidateX (cfg : Config) (blocks_generated : ℕ) (block_size : Vec3)
    (r : RNG) : ℚ × RNG :=
  if cfg.randomize_positions ∧ 0 < blocks_generated then
    let x_range := (cfg.path_width - block_size.1) / 2
    let u := pyUniform (-x_range) x_range r
    (cfg.start_pos.1 + u.1, u.2)
  else (cfg.start_pos.1 - block_size.1 / 2, r)

/-- The collision retry loop (`generate_straight_line` lines 250-265),
recursing on the remaining attempt budget (`100 - attempts`).  Returns the
final candidate X, the attempt counter, the last collision flag and the
advanced random state. -/
def flatRetryLoop (cfg : Config) (T : Trig) (block_y block_z : ℚ) (block_size : Vec3)
    (solids : List Solid) (rotation_angle : ℚ) :
    ℕ → ℕ → ℚ → Bool → RNG → ℚ × ℕ × Bool × RNG
  | 0, attempts, bx, collision, r => (bx, attempts, collision, r)
  | n + 1, attempts, bx, collision, r =>
    if collision then
      let x_range := (cfg.path_width - block_size.1) / 2
      let u := pyUniform (-x_range) x_range r
      let bx1 := snap_to_grid cfg.grid_size (cfg.start_pos.1 + u.1)
      let collision1 := check_collision T (bx1, block_y, block_z) block_size solids rotation_angle
      flatRetryLoop cfg T block_y block_z block_size solids rotation_angle
        n (attempts + 1) bx1 collision1 u.2
    else (bx, attempts, collision, r)

/-- End-of-iteration row bookkeeping (`generate_straight_line` lines 282-295):
if the row counter reached the row target, advance the cursor by the maximum
length over the trailing `current_row_blocks` solids plus the spacing, and
draw the next row target. -/
def flatRowCheck (cfg : Config) (st : FlatState) : FlatState :=
  if st.blocks_in_current_row ≤ st.current_row_blocks then
    let row_start_idx := st.solids.length - st.current_row_blocks
    let max_length := pyMaxD ((st.solids.drop row_start_idx).map fun s => s.size.2.1) 0
    let draw :=
      if 0 < st.blocks_generated then pyRandint 1 cfg.max_blocks_per_row st.rng
      else (st.blocks_in_current_row, st.rng)
    { st with
      current_y := st.current_y + max_length + cfg.spacing
      blocks_in_current_row := draw.1
      current_row_blocks := 0
      rng := draw.2 }
  else st

/-- One iteration of the `generate_straight_line` while-loop. -/
def flatStep (cfg : Config) (T : Trig) (st : FlatState) : FlatState :=
  let sel := selectBlockSize cfg st.rng
  let block_size := sel.1
  let cand := flatCandidateX cfg st.blocks_generated block_size sel.2
  let block_x := snap_to_grid cfg.grid_size cand.1
  let block_y := snap_to_grid cfg.grid_size st.current_y
  let block_z := snap_to_grid cfg.grid_size cfg.start_pos.2.2
  let rot := get_rotation_angle cfg.rotation_mode cand.2
  let collision0 := check_collision T (block_x, block_y, block_z) block_size st.solids rot.1
  let res := flatRetryLoop cfg T block_y block_z block_size st.solids rot.1
    100 0 block_x collision0 rot.2
  let st1 :=
    if 100 ≤ res.2.1 then
      { st with current_row_blocks := st.blocks_in_current_row, rng := res.2.2.2 }
    else
      { st with
        solids := st.solids ++
          [{ id := st.blocks_generated + 10, pos := (res.1, block_y, block_z),
             size := block_size, rotation_z := rot.1 }]
        blocks_generated := st.blocks_generated + 1
        current_row_blocks := st.current_row_blocks + 1
        rng := res.2.2.2 }
  flatRowCheck cfg st1

/-- The `generate_straight_line` while-loop, indexed by fuel. -/
def flatAux (cfg : Config) (T : Trig) : ℕ → FlatState → FlatState
  | 0, st => st
  | fuel + 1, st =>
    if st.blocks_generated < cfg.block_count then flatAux cfg T fuel (flatStep cfg T st)
    else st

/-- Initial loop state of `generate_straight_line`. -/
def flatInit (cfg : Config) (r : RNG) : FlatState :=
  { solids := [], current_y := cfg.start_pos.2.1, blocks_generated := 0,
    current_row_blocks := 0, blocks_in_current_row := 1, rng := r }

/-- `PathGenerator.generate_straight_line`, with explicit random state and
fuel bounding the number of loop iterations. -/
def generate_straight_line (cfg : Config) (T : Trig) (r : RNG) (fuel : ℕ) :
    List Solid :=
  (flatAux cfg T fuel (flatInit cfg r)).solids

/-! ### Segmented mode: `PathGenerator._generate_segment_blocks` and
`PathGenerator.generate_with_pattern` -/

/-- The axis bookkeeping chosen per direction at the top of
`_generate_segment_blocks` (lines 342-367). -/
structure AxisInfo where
  progress_axis : ℕ
  fixed_axis : ℕ
  progress_size_idx : ℕ
  fixed_size_idx : ℕ
  step_direction : ℚ

/-- Direction dispatch of `_generate_segment_blocks`. -/
def segAxes : SegmentDirection → AxisInfo
  | .forward => ⟨1, 0, 1, 0, 1⟩
  | .right => ⟨0, 1, 0, 1, 1⟩
  | .left => ⟨0, 1, 0, 1, -1⟩
  | .back => ⟨1, 0, 1, 0, -1⟩

/-- Loop state of `_generate_segment_blocks`; `stopped` models the `break`
taken when the cursor passes the segment end. -/
structure SegState where
  solids : List Solid
  current_progress : Vec3
  blocks_generated : ℕ
  current_row_blocks : ℕ
  blocks_in_current_row : ℕ
  stopped : Bool
  rng : RNG

/-- The fixed-axis candidate placement of `_generate_segment_blocks`
(lines 386-393), before snapping: the cursor position, with the fixed-axis
coordinate replaced by corridor-centre plus a uniform offset when position
randomisation is on and this segment has already generated a block. -/
def segCandidatePos (cfg : Config) (seg : PathSegment) (blocks_generated : ℕ)
    (block_size : Vec3) (bp0 : Vec3) (r : RNG) : Vec3 × RNG :=
  let ax := segAxes seg.direction
  if cfg.randomize_positions ∧ 0 < blocks_generated then
    let center := vget seg.start_pos ax.fixed_axis
    let offset_range := (seg.width - vget block_size ax.fixed_size_idx) / 2
    let u := pyUniform (-offset_range) offset_range r
    (vset bp0 ax.fixed_axis (center + u.1), u.2)
  else (bp0, r)

/-- Candidate selection of one `_generate_segment_blocks` iteration
(lines 374-403): block size, position (randomised on the fixed axis when
enabled, then snapped on all three axes) and rotation angle. -/
def segDrawCandidate (cfg : Config) (seg : PathSegment) (st : SegState) :
    Vec3 × Vec3 × ℚ × RNG :=
  let sel := selectBlockSize cfg st.rng
  let block_size := sel.1
  let cand := segCandidatePos cfg seg st.blocks_generated block_size st.current_progress sel.2
  let bpA := vset cand.1 0 (snap_to_grid cfg.grid_size (vget cand.1 0))
  let bpB := vset bpA 1 (snap_to_grid cfg.grid_size (vget bpA 1))
  let bp2 := vset bpB 2 (snap_to_grid cfg.grid_size (vget bpB 2))
  let rot := get_rotation_angle cfg.rotation_mode cand.2
  (block_size, bp2, rot.1, rot.2)

/-- The collision retry loop of `_generate_segment_blocks` (lines 419-435),
recursing on the remaining attempt budget.  A resampled position that leaves
the corridor returns immediately (the Python `break`), without rechecking
collision or incrementing the attempt counter. -/
def segRetryLoop (cfg : Config) (T : Trig) (seg : PathSegment) (block_size : Vec3)
    (all_solids : List Solid) (rot : ℚ) :
    ℕ → ℕ → Vec3 → Bool → RNG → Vec3 × ℕ × RNG
  | 0, attempts, bp, _, r => (bp, attempts, r)
  | n + 1, attempts, bp, collision, r =>
    if collision then
      let ax := segAxes seg.direction
      let center := vget seg.start_pos ax.fixed_axis
      let offset_range := (seg.width - vget block_size ax.fixed_size_idx) / 2
      let u := pyUniform (-offset_range) offset_range r
      let bp1 := vset bp ax.fixed_axis (snap_to_grid cfg.grid_size (center + u.1))
      if ¬ seg.is_position_in_corridor bp1 block_size then (bp1, attempts, u.2)
      else
        let collision1 := check_collision T bp1 block_size all_solids rot
        segRetryLoop cfg T seg block_size all_solids rot n (attempts + 1) bp1 collision1 u.2
    else (bp, attempts, r)

/-- End-of-iteration row bookkeeping of `_generate_segment_blocks`
(lines 452-475): advance the cursor along the progress axis, stop if the
segment end was reached or passed, otherwise draw the next row target. -/
def segRowCheck (cfg : Config) (seg : PathSegment) (st : SegState) : SegState :=
  let ax := segAxes seg.direction
  if st.blocks_in_current_row ≤ st.current_row_blocks then
    let prog :=
      if st.solids ≠ [] then
        let row_start_idx := st.solids.length - st.current_row_blocks
        let max_size :=
          pyMaxD ((st.solids.drop row_start_idx).map fun s => vget s.size ax.progress_size_idx) 0
        vget st.current_progress ax.progress_axis + (max_size + cfg.spacing) * ax.step_direction
      else vget st.current_progress ax.progress_axis + cfg.spacing * ax.step_direction
    let st1 := { st with current_progress := vset st.current_progress ax.progress_axis prog }
    if (if 0 < ax.step_direction then vget seg.end_pos ax.progress_axis ≤ prog
        else prog ≤ vget seg.end_pos ax.progress_axis) then
      { st1 with stopped := true }
    else
      let draw := pyRandint 1 cfg.max_blocks_per_row st1.rng
      { st1 with blocks_in_current_row := draw.1, current_row_blocks := 0, rng := draw.2 }
  else st

/-- One iteration of the `_generate_segment_blocks` while-loop. -/
def segStep (cfg : Config) (T : Trig) (seg : PathSegment) (existing : List Solid)
    (st : SegState) : SegState :=
  let draw := segDrawCandidate cfg seg st
  let block_size := draw.1
  let bp2 := draw.2.1
  let rot := draw.2.2.1
  let r3 := draw.2.2.2
  let st1 :=
    if ¬ seg.is_position_in_corridor bp2 block_size then
      { st with current_row_blocks := st.blocks_in_current_row, rng := r3 }
    else
      let all_solids := existing ++ st.solids
      let collision0 := check_collision T bp2 block_size all_solids rot
      let res := segRetryLoop cfg T seg block_size all_solids rot 100 0 bp2 collision0 r3
      if 100 ≤ res.2.1 ∨ ¬ seg.is_position_in_corridor res.1 block_size then
        { st with current_row_blocks := st.blocks_in_current_row, rng := res.2.2 }
      else
        { st with
          solids := st.solids ++
            [{ id := existing.length + st.solids.length + 10, pos := res.1,
               size := block_size, rotation_z := rot }]
          blocks_generated := st.blocks_generated + 1
          current_row_blocks := st.current_row_blocks + 1
          rng := res.2.2 }
  segRowCheck cfg seg st1

/-- The `_generate_segment_blocks` while-loop, indexed by fuel. -/
def segAux (cfg : Config) (T : Trig) (seg : PathSegment) (existing : List Solid) :
    ℕ → SegState → SegState
  | 0, st => st
  | fuel + 1, st =>
    if st.blocks_generated < seg.blocks ∧ st.stopped = false then
      segAux cfg T seg existing fuel (segStep cfg T seg existing st)
    else st

/-- `PathGenerator._generate_segment_blocks`: the very first segment's first
row is pinned to one block, later segments draw a random first-row target. -/
def generate_segment_blocks (cfg : Config) (T : Trig) (seg : PathSegment)
    (existing : List Solid) (seg_idx : ℕ) (r : RNG) (fuel : ℕ) :
    List Solid × RNG :=
  let init :=
    if seg_idx = 0 then ((1 : ℕ), r) else pyRandint 1 cfg.max_blocks_per_row r
  let st := segAux cfg T seg existing fuel
    { solids := [], current_progress := seg.start_pos, blocks_generated := 0,
      current_row_blocks := 0, blocks_in_current_row := init.1, stopped := false,
      rng := init.2 }
  (st.solids, st.rng)

/-- The segment-position resolution pass of `generate_with_pattern`
(lines 310-315): assign each segment's start position and derive its end. -/
def resolveSegments (start : Vec3) : List PathSegment → List PathSegment
  | [] => []
  | seg :: rest =>
    let seg1 := PathSegment.calculate_end_pos { seg with start_pos := start }
    seg1 :: resolveSegments seg1.end_pos rest

/-- The per-segment generation loop of `generate_with_pattern`
(lines 317-324), accumulating solids across segments. -/
def processSegments (cfg : Config) (T : Trig) (fuel : ℕ) :
    List PathSegment → ℕ → List Solid → RNG → List Solid × RNG
  | [], _, solids, r => (solids, r)
  | seg :: rest, seg_idx, solids, r =>
    let out := generate_segment_blocks cfg T seg solids seg_idx r fuel
    processSegments cfg T fuel rest (seg_idx + 1) (solids ++ out.1) out.2

/-- `PathGenerator.generate_with_pattern`: build segments from the pattern if
no custom chain is set, resolve their positions, then generate per segment. -/
def generate_with_pattern (cfg : Config) (T : Trig) (r : RNG) (fuel : ℕ) :
    List Solid :=
  let segs0 :=
    if cfg.segments = [] then
      create_pattern cfg.path_pattern cfg.block_count cfg.segment_length cfg.path_width
    else cfg.segments
  let segs := resolveSegments cfg.start_pos segs0
  (processSegments cfg T fuel segs 0 [] r).1

/-! ## Theorems -/

/-- C9: `set_block_types` keeps exactly the catalog names, in input order
(the result is the order-preserving filter of the input); when nothing valid
survives, the previous configuration is retained, so a non-empty configured
list never becomes empty, and no exception is raised (the embedded function
is total). -/
theorem c9_set_block_types (current types : List String) (hcur : current ≠ []) :
    (types.filter (fun t => (BLOCK_SIZES.lookup t).isSome) ≠ [] →
      set_block_types current types =
        types.filter fun t => (BLOCK_SIZES.lookup t).isSome) ∧
    (types.filter (fun t => (BLOCK_SIZES.lookup t).isSome) = [] →
      set_block_types current types = current) ∧
    set_block_types current types ≠ [] := by
  unfold set_block_types
  refine ⟨fun h => if_pos h, fun h => by rw [if_neg (by simp [h])], ?_⟩
  by_cases h : types.filter (fun t => (BLOCK_SIZES.lookup t).isSome) = []
  · rw [if_neg (by simp [h])]; exact hcur
  · rw [if_pos h]; exact h

/-- Witness for C9 at concrete inputs. -/
theorem c9_set_block_types_witness :
    set_block_types ["medium"] ["bogus", "large"] = ["large"] ∧
    set_block_types ["medium"] ["bogus"] ≠ [] := by
  constructor
  · have h := (c9_set_block_types ["medium"] ["bogus", "large"] (by decide)).1 (by decide)
    simpa using h
  · exact (c9_set_block_types ["medium"] ["bogus"] (by decide)).2.2

/-- C6: the RIGHT_TURN pattern with 10 blocks and segment length 800 yields a
FORWARD and a RIGHT segment, each of length 800 with block quota 5, and the
position-resolution pass of `generate_with_pattern` chains the second
segment's start to the first segment's end, the start translated by
`(0, 800, 0)`. -/
theorem c6_right_turn_pattern (w : ℚ) (start : Vec3) :
    create_pattern .right_turn 10 800 w =
      [{ direction := .forward, length := 800, width := w, blocks := 5 },
       { direction := .right, length := 800, width := w, blocks := 5 }] ∧
    ∃ s1 s2, resolveSegments start (create_pattern .right_turn 10 800 w) = [s1, s2] ∧
      s2.start_pos = s1.end_pos ∧
      s1.end_pos = (start.1, start.2.1 + 800, start.2.2) := by
  refine ⟨?_, _, _, rfl, rfl, rfl⟩
  show [({ direction := .forward, length := 800, width := w, blocks := 10 / 2 } : PathSegment),
        { direction := .right, length := 800, width := w, blocks := 10 / 2 }] = _
  norm_num

/-! ### Grid-snap machinery (claim C3) -/

/-- All three coordinates are exact integer multiples of the grid size. -/
def SnappedVec (g : ℚ) (v : Vec3) : Prop :=
  (∃ k : ℤ, v.1 = (k : ℚ) * g) ∧ (∃ k : ℤ, v.2.1 = (k : ℚ) * g) ∧
    (∃ k : ℤ, v.2.2 = (k : ℚ) * g)

theorem snap_to_grid_mul (g v : ℚ) : ∃ k : ℤ, snap_to_grid g v = (k : ℚ) * g :=
  ⟨pyRound (v / g), rfl⟩

theorem snappedVec_vset_snap (g : ℚ) (v : Vec3) (i : ℕ) (q : ℚ)
    (h : SnappedVec g v) : SnappedVec g (vset v i (snap_to_grid g q)) := by
  obtain ⟨h0, h1, h2⟩ := h
  match i with
  | 0 => exact ⟨snap_to_grid_mul g q, h1, h2⟩
  | 1 => exact ⟨h0, snap_to_grid_mul g q, h2⟩
  | n + 2 => exact ⟨h0, h1, snap_to_grid_mul g q⟩

theorem flatRowCheck_solids (cfg : Config) (st : FlatState) :
    (flatRowCheck cfg st).solids = st.solids := by
  unfold flatRowCheck; split <;> rfl

theorem flatRetryLoop_fst_snapped (cfg : Config) (T : Trig) (block_y block_z : ℚ)
    (block_size : Vec3) (solids : List Solid) (rotation_angle : ℚ) :
    ∀ (n attempts : ℕ) (bx : ℚ) (collision : Bool) (r : RNG),
      (∃ k : ℤ, bx = (k : ℚ) * cfg.grid_size) →
      ∃ k : ℤ,
        (flatRetryLoop cfg T block_y block_z block_size solids rotation_angle
            n attempts bx collision r).1 = (k : ℚ) * cfg.grid_size := by
  intro n
  induction n with
  | zero => intro attempts bx collision r h; exact h
  | succ n ih =>
    intro attempts bx collision r h
    rw [flatRetryLoop]
    split
    · exact ih _ _ _ _ (snap_to_grid_mul _ _)
    · exact h

theorem flatStep_snapped (cfg : Config) (T : Trig) (st : FlatState)
    (h : ∀ s ∈ st.solids, SnappedVec cfg.grid_size s.pos) :
    ∀ s ∈ (flatStep cfg T st).solids, SnappedVec cfg.grid_size s.pos := by
  rw [flatStep, flatRowCheck_solids]
  split
  · exact h
  · intro s hs
    rcases List.mem_append.1 hs with hmem | hmem
    · exact h s hmem
    · rcases List.mem_singleton.1 hmem with rfl
      exact ⟨flatRetryLoop_fst_snapped cfg T _ _ _ _ _ _ _ _ _ _
          (snap_to_grid_mul _ _),
        snap_to_grid_mul _ _, snap_to_grid_mul _ _⟩

theorem flatAux_snapped (cfg : Config) (T : Trig) :
    ∀ (fuel : ℕ) (st : FlatState),
      (∀ s ∈ st.solids, SnappedVec cfg.grid_size s.pos) →
      ∀ s ∈ (flatAux cfg T fuel st).solids, SnappedVec cfg.grid_size s.pos := by
  intro fuel
  induction fuel with
  | zero => intro st h; exact h
  | succ fuel ih =>
    intro st h
    rw [flatAux]
    split
    · exact ih _ (flatStep_snapped cfg T st h)
    · exact h

theorem vset_chain (v : Vec3) (a b c : ℚ) :
    vset (vset (vset v 0 a) 1 b) 2 c = (a, b, c) := rfl

theorem segRowCheck_solids (cfg : Config) (seg : PathSegment) (st : SegState) :
    (segRowCheck cfg seg st).solids = st.solids := by
  unfold segRowCheck
  dsimp only
  repeat' split
  all_goals rfl

theorem segRetryLoop_fst_snapped (cfg : Config) (T : Trig) (seg : PathSegment)
    (block_size : Vec3) (all_solids : List Solid) (rot : ℚ) :
    ∀ (n attempts : ℕ) (bp : Vec3) (collision : Bool) (r : RNG),
      SnappedVec cfg.grid_size bp →
      SnappedVec cfg.grid_size
        (segRetryLoop cfg T seg block_size all_solids rot n attempts bp collision r).1 := by
  intro n
  induction n with
  | zero => intro attempts bp collision r h; exact h
  | succ n ih =>
    intro attempts bp collision r h
    rw [segRetryLoop]
    dsimp only
    split
    · split
      · exact snappedVec_vset_snap _ _ _ _ h
      · exact ih _ _ _ _ (snappedVec_vset_snap _ _ _ _ h)
    · exact h

theorem segDrawCandidate_pos_snapped (cfg : Config) (seg : PathSegment) (st : SegState) :
    SnappedVec cfg.grid_size (segDrawCandidate cfg seg st).2.1 := by
  rw [segDrawCandidate]
  refine ⟨snap_to_grid_mul _ _, snap_to_grid_mul _ _, snap_to_grid_mul _ _⟩

theorem segStep_snapped (cfg : Config) (T : Trig) (seg : PathSegment)
    (existing : List Solid) (st : SegState)
    (h : ∀ s ∈ st.solids, SnappedVec cfg.grid_size s.pos) :
    ∀ s ∈ (segStep cfg T seg existing st).solids, SnappedVec cfg.grid_size s.pos := by
  rw [segStep, segRowCheck_solids]
  dsimp only
  split
  · exact h
  · split
    · exact h
    · intro s hs
      rcases List.mem_append.1 hs with hmem | hmem
      · exact h s hmem
      · rcases List.mem_singleton.1 hmem with rfl
        exact segRetryLoop_fst_snapped cfg T seg _ _ _ _ _ _ _ _
          (segDrawCandidate_pos_snapped cfg seg st)

theorem segAux_snapped (cfg : Config) (T : Trig) (seg : PathSegment)
    (existing : List Solid) :
    ∀ (fuel : ℕ) (st : SegState),
      (∀ s ∈ st.solids, SnappedVec cfg.grid_size s.pos) →
      ∀ s ∈ (segAux cfg T seg existing fuel st).solids, SnappedVec cfg.grid_size s.pos := by
  intro fuel
  induction fuel with
  | zero => intro st h; exact h
  | succ fuel ih =>
    intro st h
    rw [segAux]
    split
    · exact ih _ (segStep_snapped cfg T seg existing st h)
    · exact h

theorem generate_segment_blocks_snapped (cfg : Config) (T : Trig) (seg : PathSegment)
    (existing : List Solid) (seg_idx : ℕ) (r : RNG) (fuel : ℕ) :
    ∀ s ∈ (generate_segment_blocks cfg T seg existing seg_idx r fuel).1,
      SnappedVec cfg.grid_size s.pos := by
  rw [generate_segment_blocks]
  exact segAux_snapped cfg T seg existing fuel _ (by simp)

theorem processSegments_snapped (cfg : Config) (T : Trig) (fuel : ℕ) :
    ∀ (segs : List PathSegment) (seg_idx : ℕ) (solids : List Solid) (r : RNG),
      (∀ s ∈ solids, SnappedVec cfg.grid_size s.pos) →
      ∀ s ∈ (processSegments cfg T fuel segs seg_idx solids r).1,
        SnappedVec cfg.grid_size s.pos := by
  intro segs
  induction segs with
  | nil => intro seg_idx solids r h; exact h
  | cons seg rest ih =>
    intro seg_idx solids r h
    rw [processSegments]
    refine ih _ _ _ (fun s hs => ?_)
    rcases List.mem_append.1 hs with hmem | hmem
    · exact h s hmem
    · exact generate_segment_blocks_snapped cfg T seg solids seg_idx r fuel s hmem

/-- C3: every box returned by either generator (flat or segmented mode) has
all three position components equal to an exact integer multiple of the grid
size of that call — including boxes whose position was resampled during
collision retries, since every resample is re-snapped before use. -/
theorem c3_grid_snap (cfg : Config) (T : Trig) (r : RNG) (fuel : ℕ) :
    (∀ s ∈ generate_straight_line cfg T r fuel, SnappedVec cfg.grid_size s.pos) ∧
    (∀ s ∈ generate_with_pattern cfg T r fuel, SnappedVec cfg.grid_size s.pos) := by
  constructor
  · exact flatAux_snapped cfg T fuel _ (by simp [flatInit])
  · exact processSegments_snapped cfg T fuel _ 0 [] r (by simp)

/-! ### No-overlap machinery (claim C1) -/

theorem flatRetryLoop_false (cfg : Config) (T : Trig) (block_y block_z : ℚ)
    (block_size : Vec3) (solids : List Solid) (rot : ℚ) (n attempts : ℕ) (bx : ℚ)
    (r : RNG) :
    flatRetryLoop cfg T block_y block_z block_size solids rot (n + 1) attempts bx false r =
      (bx, attempts, false, r) := by
  rw [flatRetryLoop]; simp

theorem flatRetryLoop_true (cfg : Config) (T : Trig) (block_y block_z : ℚ)
    (block_size : Vec3) (solids : List Solid) (rot : ℚ) (n attempts : ℕ) (bx : ℚ)
    (r : RNG) :
    flatRetryLoop cfg T block_y block_z block_size solids rot (n + 1) attempts bx true r =
      flatRetryLoop cfg T block_y block_z block_size solids rot n (attempts + 1)
        (snap_to_grid cfg.grid_size
          (cfg.start_pos.1 +
            (pyUniform (-((cfg.path_width - block_size.1) / 2))
              ((cfg.path_width - block_size.1) / 2) r).1))
        (check_collision T
          (snap_to_grid cfg.grid_size
            (cfg.start_pos.1 +
              (pyUniform (-((cfg.path_width - block_size.1) / 2))
                ((cfg.path_width - block_size.1) / 2) r).1), block_y, block_z)
          block_size solids rot)
        (pyUniform (-((cfg.path_width - block_size.1) / 2))
          ((cfg.path_width - block_size.1) / 2) r).2 := by
  rw [flatRetryLoop]; simp

theorem check_collision_eq_false (T : Trig) (pos size : Vec3) (l : List Solid)
    (rot : ℚ) :
    check_collision T pos size l rot = false ↔
      ∀ s ∈ l, solidsCollide T ⟨9999, pos, size, rot⟩ s = false := by
  simp [check_collision, List.any_eq_false]

theorem solidsCollide_comm (T : Trig) (a b : Solid) :
    solidsCollide T a b = solidsCollide T b a := by
  unfold solidsCollide
  rw [decide_eq_decide]
  constructor <;> (rintro ⟨⟨h1, h2⟩, ⟨h3, h4⟩, h5, h6⟩ ; exact ⟨⟨h2, h1⟩, ⟨h4, h3⟩, h6, h5⟩)

theorem solidsCollide_id_irrel (T : Trig) (i j : ℕ) (p sz : Vec3) (rot : ℚ)
    (b : Solid) :
    solidsCollide T ⟨i, p, sz, rot⟩ b = solidsCollide T ⟨j, p, sz, rot⟩ b := rfl

/-- If the flat retry loop exits with spare attempt budget, the final
candidate position passed its collision check. -/
theorem flatRetryLoop_spec (cfg : Config) (T : Trig) (block_y block_z : ℚ)
    (block_size : Vec3) (solids : List Solid) (rot : ℚ) :
    ∀ (n attempts : ℕ) (bx : ℚ) (collision : Bool) (r : RNG),
      collision = check_collision T (bx, block_y, block_z) block_size solids rot →
      (flatRetryLoop cfg T block_y block_z block_size solids rot
          n attempts bx collision r).2.1 < attempts + n →
      check_collision T
        ((flatRetryLoop cfg T block_y block_z block_size solids rot
            n attempts bx collision r).1, block_y, block_z) block_size solids rot =
        false := by
  intro n
  induction n with
  | zero =>
    intro attempts bx collision r hc hlt
    rw [flatRetryLoop] at hlt
    simp at hlt
  | succ n ih =>
    intro attempts bx collision r hc hlt
    cases collision with
    | false =>
      rw [flatRetryLoop_false] at hlt ⊢
      exact hc.symm
    | true =>
      rw [flatRetryLoop_true] at hlt ⊢
      exact ih _ _ _ _ rfl (by omega)

/-- A box appended by the flat placement branch passed its final collision
check: the retry loop ended with spare budget. -/
theorem flat_placed_no_collision (cfg : Config) (T : Trig) (block_y block_z : ℚ)
    (size : Vec3) (solids : List Solid) (rot : ℚ) (bx0 : ℚ) (r : RNG)
    (h : ¬ 100 ≤ (flatRetryLoop cfg T block_y block_z size solids rot 100 0 bx0
        (check_collision T (bx0, block_y, block_z) size solids rot) r).2.1) :
    check_collision T
      ((flatRetryLoop cfg T block_y block_z size solids rot 100 0 bx0
          (check_collision T (bx0, block_y, block_z) size solids rot) r).1,
        block_y, block_z) size solids rot = false :=
  flatRetryLoop_spec cfg T block_y block_z size solids rot 100 0 bx0 _ r rfl (by omega)

theorem flatStep_no_overlap (cfg : Config) (T : Trig) (st : FlatState)
    (h : st.solids.Pairwise fun a b => solidsCollide T a b = false) :
    (flatStep cfg T st).solids.Pairwise fun a b => solidsCollide T a b = false := by
  rw [flatStep, flatRowCheck_solids]
  split
  · exact h
  · rename_i hlt
    rw [List.pairwise_append]
    refine ⟨h, List.pairwise_singleton _ _, fun a ha b hb => ?_⟩
    rcases List.mem_singleton.1 hb with rfl
    have hcc := flat_placed_no_collision cfg T
      (snap_to_grid cfg.grid_size st.current_y)
      (snap_to_grid cfg.grid_size cfg.start_pos.2.2)
      (selectBlockSize cfg st.rng).1 st.solids
      (get_rotation_angle cfg.rotation_mode
        (flatCandidateX cfg st.blocks_generated (selectBlockSize cfg st.rng).1
          (selectBlockSize cfg st.rng).2).2).1
      (snap_to_grid cfg.grid_size
        (flatCandidateX cfg st.blocks_generated (selectBlockSize cfg st.rng).1
          (selectBlockSize cfg st.rng).2).1)
      (get_rotation_angle cfg.rotation_mode
        (flatCandidateX cfg st.blocks_generated (selectBlockSize cfg st.rng).1
          (selectBlockSize cfg st.rng).2).2).2 hlt
    rw [check_collision_eq_false] at hcc
    rw [solidsCollide_comm, solidsCollide_id_irrel T _ 9999]
    exact hcc a ha

theorem flatAux_no_overlap (cfg : Config) (T : Trig) :
    ∀ (fuel : ℕ) (st : FlatState),
      (st.solids.Pairwise fun a b => solidsCollide T a b = false) →
      (flatAux cfg T fuel st).solids.Pairwise fun a b => solidsCollide T a b = false := by
  intro fuel
  induction fuel with
  | zero => intro st h; exact h
  | succ fuel ih =>
    intro st h
    rw [flatAux]
    split
    · exact ih _ (flatStep_no_overlap cfg T st h)
    · exact h

theorem segRetryLoop_false (cfg : Config) (T : Trig) (seg : PathSegment)
    (block_size : Vec3) (all_solids : List Solid) (rot : ℚ) (n attempts : ℕ)
    (bp : Vec3) (r : RNG) :
    segRetryLoop cfg T seg block_size all_solids rot (n + 1) attempts bp false r =
      (bp, attempts, r) := by
  rw [segRetryLoop]; simp

theorem segRetryLoop_true (cfg : Config) (T : Trig) (seg : PathSegment)
    (block_size : Vec3) (all_solids : List Solid) (rot : ℚ) (n attempts : ℕ)
    (bp : Vec3) (r : RNG) :
    segRetryLoop cfg T seg block_size all_solids rot (n + 1) attempts bp true r =
      (let ax := segAxes seg.direction
       let offset_range := (seg.width - vget block_size ax.fixed_size_idx) / 2
       let u := pyUniform (-offset_range) offset_range r
       let bp1 := vset bp ax.fixed_axis
         (snap_to_grid cfg.grid_size (vget seg.start_pos ax.fixed_axis + u.1))
       if ¬ seg.is_position_in_corridor bp1 block_size then (bp1, attempts, u.2)
       else
         segRetryLoop cfg T seg block_size all_solids rot n (attempts + 1) bp1
           (check_collision T bp1 block_size all_solids rot) u.2) := by
  rw [segRetryLoop]; simp

/-- If the segment retry loop exits with spare budget at an in-corridor
position, that position passed its collision check. -/
theorem segRetryLoop_spec (cfg : Config) (T : Trig) (seg : PathSegment)
    (block_size : Vec3) (all_solids : List Solid) (rot : ℚ) :
    ∀ (n attempts : ℕ) (bp : Vec3) (collision : Bool) (r : RNG),
      collision = check_collision T bp block_size all_solids rot →
      (segRetryLoop cfg T seg block_size all_solids rot n attempts bp collision r).2.1 <
        attempts + n →
      seg.is_position_in_corridor
        (segRetryLoop cfg T seg block_size all_solids rot n attempts bp collision r).1
        block_size = true →
      check_collision T
        (segRetryLoop cfg T seg block_size all_solids rot n attempts bp collision r).1
        block_size all_solids rot = false := by
  intro n
  induction n with
  | zero =>
    intro attempts bp collision r hc hlt hcorr
    rw [segRetryLoop] at hlt
    simp at hlt
  | succ n ih =>
    intro attempts bp collision r hc hlt hcorr
    cases collision with
    | false =>
      rw [segRetryLoop_false] at hlt hcorr ⊢
      exact hc.symm
    | true =>
      rw [segRetryLoop_true] at hlt hcorr ⊢
      dsimp only at hlt hcorr ⊢
      split at hlt
      · rename_i hout
        rw [if_pos hout] at hcorr
        dsimp only at hcorr
        rw [if_pos hout]
        exact absurd hcorr (by simpa using hout)
      · rename_i hin
        rw [if_neg hin] at hcorr ⊢
        exact ih _ _ _ _ rfl (by omega) hcorr

/-- A box appended by the segment placement branch passed its final collision
check. -/
theorem seg_placed_no_collision (cfg : Config) (T : Trig) (seg : PathSegment)
    (block_size : Vec3) (all_solids : List Solid) (rot : ℚ) (bp0 : Vec3) (r : RNG)
    (h : ¬ (100 ≤ (segRetryLoop cfg T seg block_size all_solids rot 100 0 bp0
          (check_collision T bp0 block_size all_solids rot) r).2.1 ∨
        ¬ seg.is_position_in_corridor
          (segRetryLoop cfg T seg block_size all_solids rot 100 0 bp0
            (check_collision T bp0 block_size all_solids rot) r).1 block_size = true)) :
    check_collision T
      (segRetryLoop cfg T seg block_size all_solids rot 100 0 bp0
        (check_collision T bp0 block_size all_solids rot) r).1
      block_size all_solids rot = false := by
  push_neg at h
  exact segRetryLoop_spec cfg T seg block_size all_solids rot 100 0 bp0 _ r rfl
    (by omega) h.2

theorem segStep_no_overlap (cfg : Config) (T : Trig) (seg : PathSegment)
    (existing : List Solid) (st : SegState)
    (h : (existing ++ st.solids).Pairwise fun a b => solidsCollide T a b = false) :
    (existing ++ (segStep cfg T seg existing st).solids).Pairwise
      fun a b => solidsCollide T a b = false := by
  rw [segStep, segRowCheck_solids]
  dsimp only
  split
  · exact h
  · split
    · exact h
    · rename_i hplace
      rw [← List.append_assoc, List.pairwise_append]
      refine ⟨h, List.pairwise_singleton _ _, fun a ha b hb => ?_⟩
      rcases List.mem_singleton.1 hb with rfl
      have hcc := seg_placed_no_collision cfg T seg (segDrawCandidate cfg seg st).1
        (existing ++ st.solids) (segDrawCandidate cfg seg st).2.2.1
        (segDrawCandidate cfg seg st).2.1 (segDrawCandidate cfg seg st).2.2.2 hplace
      rw [check_collision_eq_false] at hcc
      rw [solidsCollide_comm, solidsCollide_id_irrel T _ 9999]
      exact hcc a ha

theorem segAux_no_overlap (cfg : Config) (T : Trig) (seg : PathSegment)
    (existing : List Solid) :
    ∀ (fuel : ℕ) (st : SegState),
      ((existing ++ st.solids).Pairwise fun a b => solidsCollide T a b = false) →
      (existing ++ (segAux cfg T seg existing fuel st).solids).Pairwise
        fun a b => solidsCollide T a b = false := by
  intro fuel
  induction fuel with
  | zero => intro st h; exact h
  | succ fuel ih =>
    intro st h
    rw [segAux]
    split
    · exact ih _ (segStep_no_overlap cfg T seg existing st h)
    · exact h

theorem generate_segment_blocks_no_overlap (cfg : Config) (T : Trig)
    (seg : PathSegment) (existing : List Solid) (seg_idx : ℕ) (r : RNG) (fuel : ℕ)
    (h : existing.Pairwise fun a b => solidsCollide T a b = false) :
    (existing ++ (generate_segment_blocks cfg T seg existing seg_idx r fuel).1).Pairwise
      fun a b => solidsCollide T a b = false := by
  rw [generate_segment_blocks]
  exact segAux_no_overlap cfg T seg existing fuel _ (by simpa using h)

theorem processSegments_no_overlap (cfg : Config) (T : Trig) (fuel : ℕ) :
    ∀ (segs : List PathSegment) (seg_idx : ℕ) (solids : List Solid) (r : RNG),
      (solids.Pairwise fun a b => solidsCollide T a b = false) →
      ((processSegments cfg T fuel segs seg_idx solids r).1.Pairwise
        fun a b => solidsCollide T a b = false) := by
  intro segs
  induction segs with
  | nil => intro seg_idx solids r h; exact h
  | cons seg rest ih =>
    intro seg_idx solids r h
    rw [processSegments]
    exact ih _ _ _ (generate_segment_blocks_no_overlap cfg T seg solids seg_idx r fuel h)

/-- C1: in every list returned by `generate_straight_line` or
`generate_with_pattern`, no two boxes collide — for every pair, the
rotation-aware AABB test of `_check_collision` (rotated boxes contribute the
min/max extents of their rotated top-face corners, unrotated boxes their raw
corners) does not report simultaneous overlap on the X, Y and Z axes. -/
theorem c1_no_overlap (cfg : Config) (T : Trig) (r : RNG) (fuel : ℕ) :
    ((generate_straight_line cfg T r fuel).Pairwise
      fun a b => solidsCollide T a b = false) ∧
    ((generate_with_pattern cfg T r fuel).Pairwise
      fun a b => solidsCollide T a b = false) := by
  constructor
  · exact flatAux_no_overlap cfg T fuel _ (by simp [flatInit])
  · exact processSegments_no_overlap cfg T fuel _ 0 [] r (by simp)

/-! ### Corridor containment failures (claims C5 and C8) -/

theorem pyChoice_mem {α : Type} (l : List α) (d : α) (r : RNG) (h : l ≠ []) :
    (pyChoice l d r).1 ∈ l := by
  unfold pyChoice
  have hlen : 0 < l.length := List.length_pos.2 h
  have hidx : min (l.length - 1) (⌊(r.next).1 * (l.length : ℚ)⌋.toNat) < l.length := by
    have := Nat.min_le_left (l.length - 1) (⌊(r.next).1 * (l.length : ℚ)⌋.toNat)
    omega
  rw [List.getD_eq_getElem _ _ hidx]
  exact List.getElem_mem hidx

theorem headD_mem {α : Type} (l : List α) (d : α) (h : l ≠ []) : l.headD d ∈ l := by
  cases l with
  | nil => exact absurd rfl h
  | cons a t => exact List.mem_cons_self a t

/-- Every size the engine can draw belongs to `candidateSizes`. -/
theorem selectBlockSize_mem (cfg : Config) (r : RNG) (hbt : cfg.block_types ≠ []) :
    (selectBlockSize cfg r).1 ∈ candidateSizes cfg := by
  unfold selectBlockSize candidateSizes
  split
  · rename_i hsh
    rw [get_block_size_from_shapes, if_neg hsh]
    exact List.mem_map_of_mem _ (pyChoice_mem cfg.shapes ⟨(1, 1)⟩ r hsh)
  · split
    · exact List.mem_map_of_mem _ (pyChoice_mem cfg.block_types "medium" r hbt)
    · exact List.mem_map_of_mem _ (headD_mem cfg.block_types "medium" hbt)

/-- The drawn candidate size is the output of the shared size selection. -/
theorem segDrawCandidate_fst (cfg : Config) (seg : PathSegment) (st : SegState) :
    (segDrawCandidate cfg seg st).1 = (selectBlockSize cfg st.rng).1 := rfl

/-- A footprint whose extent on the segment's perpendicular axis strictly
exceeds the corridor width never passes the containment test. -/
theorem corridor_false_of_wide (seg : PathSegment) (pos blockSize : Vec3)
    (h : seg.width < vget blockSize (segAxes seg.direction).fixed_size_idx) :
    seg.is_position_in_corridor pos blockSize = false := by
  rcases seg with ⟨dir, len, wdt, blk, sp, ep⟩
  cases dir <;>
    (simp only [segAxes] at h
     unfold PathSegment.is_position_in_corridor
     dsimp only
     rw [decide_eq_false_iff_not]
     rintro ⟨⟨h1, h2⟩, h3, h4⟩
     dsimp only [vget] at h
     linarith)

/-- A segment whose resolved end coincides with its start rejects every
candidate with positive planar sizes. -/
theorem corridor_false_of_degenerate (seg : PathSegment) (pos blockSize : Vec3)
    (hse : seg.end_pos = seg.start_pos)
    (hw : 0 < blockSize.1) (hl : 0 < blockSize.2.1) :
    seg.is_position_in_corridor pos blockSize = false := by
  rcases seg with ⟨dir, len, wdt, blk, sp, ep⟩
  cases hse
  cases dir <;>
    (unfold PathSegment.is_position_in_corridor
     dsimp only
     rw [decide_eq_false_iff_not]
     rintro ⟨⟨h1, h2⟩, h3, h4⟩
     linarith)

/-- When the initial corridor check fails, the iteration abandons the row
immediately: no collision check runs, no retry budget is consumed, and the
random state stays at the candidate draw's. -/
theorem segStep_of_corridor_false (cfg : Config) (T : Trig) (seg : PathSegment)
    (existing : List Solid) (st : SegState)
    (h : seg.is_position_in_corridor (segDrawCandidate cfg seg st).2.1
      (segDrawCandidate cfg seg st).1 = false) :
    segStep cfg T seg existing st =
      segRowCheck cfg seg
        { st with current_row_blocks := st.blocks_in_current_row,
                  rng := (segDrawCandidate cfg seg st).2.2.2 } := by
  rw [segStep]
  dsimp only
  rw [if_pos (by simp [h])]

theorem segAux_solids_eq (cfg : Config) (T : Trig) (seg : PathSegment)
    (existing : List Solid)
    (h : ∀ st : SegState,
      seg.is_position_in_corridor (segDrawCandidate cfg seg st).2.1
        (segDrawCandidate cfg seg st).1 = false) :
    ∀ (fuel : ℕ) (st : SegState),
      (segAux cfg T seg existing fuel st).solids = st.solids := by
  intro fuel
  induction fuel with
  | zero => intro st; rfl
  | succ fuel ih =>
    intro st
    rw [segAux]
    split
    · rw [ih, segStep_of_corridor_false cfg T seg existing st (h st), segRowCheck_solids]
    · rfl

theorem generate_segment_blocks_nil (cfg : Config) (T : Trig) (seg : PathSegment)
    (existing : List Solid) (seg_idx : ℕ) (r : RNG) (fuel : ℕ)
    (h : ∀ st : SegState,
      seg.is_position_in_corridor (segDrawCandidate cfg seg st).2.1
        (segDrawCandidate cfg seg st).1 = false) :
    (generate_segment_blocks cfg T seg existing seg_idx r fuel).1 = [] := by
  rw [generate_segment_blocks]
  exact segAux_solids_eq cfg T seg existing h fuel _

/-- C5: a candidate footprint strictly wider than the corridor never passes
containment (first clause); when the drawn footprint is too wide, the
iteration abandons the row directly after the candidate draw — the collision
retry loop is never entered and the random state advances only by the draw
itself (second clause); and when every drawable size is too wide, the segment
contributes zero boxes at every fuel (third clause). -/
theorem c5_wide_footprint (cfg : Config) (T : Trig) (seg : PathSegment)
    (existing : List Solid) (st : SegState) (pos sz : Vec3)
    (hw : seg.width < vget sz (segAxes seg.direction).fixed_size_idx)
    (hbt : cfg.block_types ≠ [])
    (hall : ∀ s ∈ candidateSizes cfg,
      seg.width < vget s (segAxes seg.direction).fixed_size_idx) :
    seg.is_position_in_corridor pos sz = false ∧
    segStep cfg T seg existing st =
      segRowCheck cfg seg
        { st with current_row_blocks := st.blocks_in_current_row,
                  rng := (segDrawCandidate cfg seg st).2.2.2 } ∧
    ∀ (seg_idx : ℕ) (r : RNG) (fuel : ℕ),
      (generate_segment_blocks cfg T seg existing seg_idx r fuel).1 = [] := by
  have hdraw : ∀ st' : SegState,
      seg.is_position_in_corridor (segDrawCandidate cfg seg st').2.1
        (segDrawCandidate cfg seg st').1 = false := by
    intro st'
    refine corridor_false_of_wide seg _ _ ?_
    rw [segDrawCandidate_fst]
    exact hall _ (selectBlockSize_mem cfg st'.rng hbt)
  refine ⟨corridor_false_of_wide seg pos sz hw,
    segStep_of_corridor_false cfg T seg existing st (hdraw st),
    fun seg_idx r fuel => generate_segment_blocks_nil cfg T seg existing seg_idx r fuel hdraw⟩

/-- Witness for C5: a 50-wide corridor rejects every catalog footprint of the
default configuration; the run of a concrete segment yields no boxes. -/
theorem c5_wide_footprint_witness :
    ({ direction := .forward, length := 800, width := 50, blocks := 5,
       start_pos := (0, 0, 0), end_pos := (0, 800, 0) } : PathSegment).is_position_in_corridor
      (0, 0, 0) (96, 96, 32) = false ∧
    (generate_segment_blocks { } constTrig
      { direction := .forward, length := 800, width := 50, blocks := 5,
        start_pos := (0, 0, 0), end_pos := (0, 800, 0) } [] 0 ⟨fun _ => 0, 0⟩ 7).1 = [] := by
  have h := c5_wide_footprint { } constTrig
    { direction := .forward, length := 800, width := 50, blocks := 5,
      start_pos := (0, 0, 0), end_pos := (0, 800, 0) } []
    { solids := [], current_progress := (0, 0, 0), blocks_generated := 0,
      current_row_blocks := 0, blocks_in_current_row := 1, stopped := false,
      rng := ⟨fun _ => 0, 0⟩ }
    (0, 0, 0) (96, 96, 32) (by norm_num [segAxes, vget]) (by decide)
    (by decide)
  exact ⟨h.1, h.2.2 0 ⟨fun _ => 0, 0⟩ 7⟩

/-- Resolving a zero-length segment leaves its end at its start. -/
theorem calculate_end_pos_zero (seg : PathSegment) (start : Vec3)
    (hlen : seg.length = 0) :
    (PathSegment.calculate_end_pos { seg with start_pos := start }).end_pos = start ∧
    (PathSegment.calculate_end_pos { seg with start_pos := start }).start_pos = start := by
  rcases seg with ⟨dir, len, wdt, blk, sp, ep⟩
  simp only at hlen
  subst hlen
  cases dir <;> simp [PathSegment.calculate_end_pos]

/-- C8: a malformed segment whose length and corridor width are both zero
(with positive candidate box sizes) yields an empty list — the embedded
generation is a total function, so no exception is modelled — and the
per-segment loop of `generate_with_pattern` proceeds directly to the
following segments, the accumulated box list unchanged. -/
theorem c8_degenerate_segment (cfg : Config) (T : Trig) (seg : PathSegment)
    (hlen : seg.length = 0) (hwid : seg.width = 0)
    (hbt : cfg.block_types ≠ [])
    (hpos : ∀ s ∈ candidateSizes cfg, 0 < s.1 ∧ 0 < s.2.1) (start : Vec3) :
    (∀ (existing : List Solid) (seg_idx : ℕ) (r : RNG) (fuel : ℕ),
      (generate_segment_blocks cfg T
        (PathSegment.calculate_end_pos { seg with start_pos := start })
        existing seg_idx r fuel).1 = []) ∧
    (∀ (rest : List PathSegment) (seg_idx : ℕ) (solids : List Solid) (r : RNG)
        (fuel : ℕ),
      processSegments cfg T fuel
        (PathSegment.calculate_end_pos { seg with start_pos := start } :: rest)
        seg_idx solids r =
      processSegments cfg T fuel rest (seg_idx + 1) solids
        (generate_segment_blocks cfg T
          (PathSegment.calculate_end_pos { seg with start_pos := start })
          solids seg_idx r fuel).2) := by
  have hse := calculate_end_pos_zero seg start hlen
  have hdraw : ∀ st' : SegState,
      (PathSegment.calculate_end_pos
        { seg with start_pos := start }).is_position_in_corridor
        (segDrawCandidate cfg (PathSegment.calculate_end_pos { seg with start_pos := start }) st').2.1
        (segDrawCandidate cfg (PathSegment.calculate_end_pos { seg with start_pos := start }) st').1 =
        false := by
    intro st'
    have hmem := selectBlockSize_mem cfg st'.rng hbt
    refine corridor_false_of_degenerate _ _ _ (by rw [hse.1, hse.2]) ?_ ?_
    · rw [segDrawCandidate_fst]; exact (hpos _ hmem).1
    · rw [segDrawCandidate_fst]; exact (hpos _ hmem).2
  have hnil : ∀ (existing : List Solid) (seg_idx : ℕ) (r : RNG) (fuel : ℕ),
      (generate_segment_blocks cfg T
        (PathSegment.calculate_end_pos { seg with start_pos := start })
        existing seg_idx r fuel).1 = [] :=
    fun existing seg_idx r fuel =>
      generate_segment_blocks_nil cfg T _ existing seg_idx r fuel hdraw
  refine ⟨hnil, fun rest seg_idx solids r fuel => ?_⟩
  rw [processSegments, hnil solids seg_idx r fuel, List.append_nil]

/-- Witness for C8 at a concrete degenerate segment and configuration. -/
theorem c8_degenerate_segment_witness :
    (generate_segment_blocks { } constTrig
      (PathSegment.calculate_end_pos
        { direction := .forward, length := 0, width := 0, blocks := 3,
          start_pos := (0, 0, 0) })
      [] 0 ⟨fun _ => 0, 0⟩ 5).1 = [] := by
  have h := c8_degenerate_segment { } constTrig
    { direction := .forward, length := 0, width := 0, blocks := 3, start_pos := (0, 0, 0) }
    rfl rfl (by decide) (by decide) (0, 0, 0)
  have h1 := h.1 [] 0 ⟨fun _ => 0, 0⟩ 5
  simpa using h1

/-! ### Candidate placement (claim C4) -/

theorem flatRowCheck_gen (cfg : Config) (st : FlatState) :
    (flatRowCheck cfg st).blocks_generated = st.blocks_generated := by
  unfold flatRowCheck; split <;> rfl

theorem flatCandidateX_centered (cfg : Config) (gen : ℕ) (block_size : Vec3)
    (r : RNG) (h : ¬ (cfg.randomize_positions ∧ 0 < gen)) :
    flatCandidateX cfg gen block_size r = (cfg.start_pos.1 - block_size.1 / 2, r) := by
  unfold flatCandidateX; rw [if_neg h]

theorem check_collision_nil (T : Trig) (pos size : Vec3) (rot : ℚ) :
    check_collision T pos size [] rot = false := rfl

theorem flatRetryLoop_entry_false (cfg : Config) (T : Trig) (block_y block_z : ℚ)
    (block_size : Vec3) (solids : List Solid) (rot : ℚ) (bx : ℚ) (r : RNG) :
    flatRetryLoop cfg T block_y block_z block_size solids rot 100 0 bx false r =
      (bx, 0, false, r) := by
  rw [show (100 : ℕ) = 99 + 1 from rfl, flatRetryLoop_false]

theorem flatAux_of_ge (cfg : Config) (T : Trig) :
    ∀ (fuel : ℕ) (st : FlatState), cfg.block_count ≤ st.blocks_generated →
      flatAux cfg T fuel st = st := by
  intro fuel
  induction fuel with
  | zero => intro st _; rfl
  | succ fuel ih => intro st h; rw [flatAux, if_neg (by omega)]

/-- In a collision-free context (no solids yet), the first iteration places
its (centre-snapped) candidate. -/
theorem flatStep_init_solids (cfg : Config) (T : Trig) (r : RNG) :
    (flatStep cfg T (flatInit cfg r)).solids =
      [{ id := 10,
         pos := (snap_to_grid cfg.grid_size
            (cfg.start_pos.1 - (selectBlockSize cfg r).1.1 / 2),
           snap_to_grid cfg.grid_size cfg.start_pos.2.1,
           snap_to_grid cfg.grid_size cfg.start_pos.2.2),
         size := (selectBlockSize cfg r).1,
         rotation_z := (get_rotation_angle cfg.rotation_mode
           (selectBlockSize cfg r).2).1 }] ∧
    (flatStep cfg T (flatInit cfg r)).blocks_generated = 1 := by
  constructor
  · rw [flatStep, flatRowCheck_solids]
    simp only [flatInit]
    rw [flatCandidateX_centered _ _ _ _ (by simp), check_collision_nil,
      flatRetryLoop_entry_false, if_neg (by simp)]
    rfl
  · rw [flatStep, flatRowCheck_gen]
    simp only [flatInit]
    rw [flatCandidateX_centered _ _ _ _ (by simp), check_collision_nil,
      flatRetryLoop_entry_false, if_neg (by simp)]

/-- The single-block flat scenario: exactly one box, centred at
`x − width/2` before snapping. -/
theorem flat_single_block (cfg : Config) (T : Trig) (r : RNG) (fuel : ℕ)
    (hc : cfg.block_count = 1) (hf : 1 ≤ fuel) :
    ∃ b : Solid, generate_straight_line cfg T r fuel = [b] ∧
      b.pos = (snap_to_grid cfg.grid_size (cfg.start_pos.1 - b.size.1 / 2),
        snap_to_grid cfg.grid_size cfg.start_pos.2.1,
        snap_to_grid cfg.grid_size cfg.start_pos.2.2) := by
  obtain ⟨f, rfl⟩ : ∃ f, fuel = f + 1 := ⟨fuel - 1, by omega⟩
  unfold generate_straight_line
  rw [flatAux, if_pos (by simp [flatInit, hc])]
  rw [flatAux_of_ge cfg T f _ (by rw [(flatStep_init_solids cfg T r).2, hc])]
  rw [(flatStep_init_solids cfg T r).1]
  exact ⟨_, rfl, rfl⟩

/-- Offsets drawn by `uniform(-c, c)` stay within `[-c, c]` for a valid
random stream. -/
theorem pyUniform_symm_bound (c : ℚ) (r : RNG) (hv : RNG.Valid r) (hc : 0 ≤ c) :
    |(pyUniform (-c) c r).1| ≤ c := by
  unfold pyUniform RNG.next
  dsimp only
  obtain ⟨h0, h1⟩ := hv r.idx
  rw [abs_le]
  constructor <;> nlinarith

/-- Configuration and scripted stream refuting claim C4 as stated. -/
def c4cfg : Config :=
  { block_count := 2, randomize_sizes := false, block_types := ["medium"],
    randomize_positions := true, grid_size := 32, spacing := 150, path_width := 512,
    rotation_mode := .noRotation, max_blocks_per_row := 3 }

/-- Stream for the C4 counterexample: the row-2 target draw gets 0, the
row-2 first-block offset draw gets 1/2 (offset 0 from centre). -/
def c4rng : RNG := ⟨fun n => if n = 1 then 1/2 else 0, 0⟩

/-- Counterexample to C4 as stated: the second box is the first (and only)
block of the second row — its row has target size 1 and its y (256) differs
from the first box's (0) — yet its X coordinate is 0, not the centred
placement `snap (0 − 96/2) = −64` the claim requires for the first block of
each row: the code's centring condition is `blocks_generated > 0`, a
call-global counter, not a per-row one. -/
theorem c4_run_step1 :
    flatStep c4cfg constTrig (flatInit c4cfg c4rng) =
      { solids := [⟨10, (-64, 0, 0), (96, 96, 32), 0⟩], current_y := 246,
        blocks_generated := 1, current_row_blocks := 0, blocks_in_current_row := 1,
        rng := ⟨c4rng.stream, 1⟩ } := by
  have hm : blockSizeOf "medium" = (96, 96, 32) := rfl
  norm_num [flatStep, flatInit, flatCandidateX, flatRowCheck, flatRetryLoop_entry_false,
    selectBlockSize, hm, pyChoice, pyUniform, pyRandint, RNG.next,
    get_rotation_angle, check_collision, snap_to_grid, pyRound, pyMaxD, c4cfg, c4rng,
    Int.fract]

theorem c4_counterexample :
    (generate_straight_line c4cfg constTrig c4rng 2).map (fun s => s.pos) =
      [(-64, 0, 0), (0, 256, 0)] ∧
    snap_to_grid (32 : ℚ) (0 - 96 / 2) = -64 ∧
    ((0 : ℚ), (256 : ℚ), (0 : ℚ)).1 ≠ (-64 : ℚ) ∧
    ((0 : ℚ), (256 : ℚ), (0 : ℚ)).1 ≠ 0 - 96 / 2 := by
  refine ⟨?_, by norm_num [snap_to_grid, pyRound], by norm_num, by norm_num⟩
  have hm : blockSizeOf "medium" = (96, 96, 32) := rfl
  have h2 : flatStep c4cfg constTrig
      { solids := [⟨10, (-64, 0, 0), (96, 96, 32), 0⟩], current_y := 246,
        blocks_generated := 1, current_row_blocks := 0, blocks_in_current_row := 1,
        rng := ⟨c4rng.stream, 1⟩ } =
      { solids := [⟨10, (-64, 0, 0), (96, 96, 32), 0⟩, ⟨11, (0, 256, 0), (96, 96, 32), 0⟩],
        current_y := 492, blocks_generated := 2, current_row_blocks := 0,
        blocks_in_current_row := 1, rng := ⟨c4rng.stream, 3⟩ } := by
    norm_num [flatStep, flatCandidateX, flatRowCheck, flatRetryLoop_entry_false,
      selectBlockSize, hm, pyChoice, pyUniform, pyRandint, RNG.next,
      get_rotation_angle, check_collision, solidsCollide, solidAABB, snap_to_grid,
      pyRound, pyMaxD, c4cfg, c4rng, Int.fract]
  rw [show (2:ℕ) = 1 + 1 from rfl]
  unfold generate_straight_line
  rw [flatAux, if_pos (by norm_num [flatInit, c4cfg]), c4_run_step1]
  rw [flatAux, if_pos (by norm_num [c4cfg]), h2]
  rfl

/-- C4, amended: the centred placement applies exactly when position
randomisation is off or no block has yet been generated in the call (flat
mode) or segment — not per row.  In flat mode the centred candidate X is
`start_x − width/2` (before snapping); in segmented mode the unrandomised
candidate simply keeps the cursor position, whose fixed-axis coordinate
places the box's minimum corner on the corridor centre line.  Every other
block's candidate coordinate is the corridor centre plus the uniform draw
from `±(corridor width − footprint extent)/2`, staying in that band for a
valid stream.  With `block_count = 1` the single returned box is placed at
`x = −width/2` of its chosen footprint relative to the start (before snap),
`y` and `z` at the snapped start coordinates. -/
theorem c4_candidate_amended (cfg : Config) (seg : PathSegment) (gen : ℕ)
    (block_size : Vec3) (bp0 : Vec3) (r : RNG) :
    (¬ (cfg.randomize_positions ∧ 0 < gen) →
      flatCandidateX cfg gen block_size r = (cfg.start_pos.1 - block_size.1 / 2, r)) ∧
    (cfg.randomize_positions ∧ 0 < gen →
      (flatCandidateX cfg gen block_size r).1 =
        cfg.start_pos.1 +
          (pyUniform (-((cfg.path_width - block_size.1) / 2))
            ((cfg.path_width - block_size.1) / 2) r).1) ∧
    (cfg.randomize_positions ∧ 0 < gen → RNG.Valid r →
      0 ≤ (cfg.path_width - block_size.1) / 2 →
      |(flatCandidateX cfg gen block_size r).1 - cfg.start_pos.1| ≤
        (cfg.path_width - block_size.1) / 2) ∧
    (¬ (cfg.randomize_positions ∧ 0 < gen) →
      segCandidatePos cfg seg gen block_size bp0 r = (bp0, r)) ∧
    (cfg.randomize_positions ∧ 0 < gen →
      (segCandidatePos cfg seg gen block_size bp0 r).1 =
        vset bp0 (segAxes seg.direction).fixed_axis
          (vget seg.start_pos (segAxes seg.direction).fixed_axis +
            (pyUniform
              (-((seg.width - vget block_size (segAxes seg.direction).fixed_size_idx) / 2))
              ((seg.width - vget block_size (segAxes seg.direction).fixed_size_idx) / 2)
              r).1)) ∧
    (∀ (T : Trig) (fuel : ℕ), cfg.block_count = 1 → 1 ≤ fuel →
      ∃ b : Solid, generate_straight_line cfg T r fuel = [b] ∧
        b.pos = (snap_to_grid cfg.grid_size (cfg.start_pos.1 - b.size.1 / 2),
          snap_to_grid cfg.grid_size cfg.start_pos.2.1,
          snap_to_grid cfg.grid_size cfg.start_pos.2.2)) := by
  refine ⟨fun h => flatCandidateX_centered cfg gen block_size r h, fun h => ?_,
    fun h hv hr => ?_, fun h => ?_, fun h => ?_,
    fun T fuel hc hf => flat_single_block cfg T r fuel hc hf⟩
  · unfold flatCandidateX; rw [if_pos h]
  · unfold flatCandidateX
    rw [if_pos h]
    dsimp only
    rw [add_sub_cancel_left]
    exact pyUniform_symm_bound _ r hv hr
  · unfold segCandidatePos; rw [if_neg h]
  · unfold segCandidatePos; rw [if_pos h]

/-- Witness for C4's amended claim at concrete inputs. -/
theorem c4_candidate_amended_witness :
    flatCandidateX { block_count := 1 } 0 (96, 96, 32) ⟨fun _ => 0, 0⟩ =
      (0 - 96 / 2, ⟨fun _ => 0, 0⟩) ∧
    (generate_straight_line { block_count := 1 } constTrig ⟨fun _ => 0, 0⟩ 1).length = 1 := by
  have h := c4_candidate_amended { block_count := 1 }
    { direction := .forward, length := 800, width := 512, blocks := 1 }
    0 (96, 96, 32) (0, 0, 0) ⟨fun _ => 0, 0⟩
  constructor
  · have h1 := h.1 (by simp)
    simpa using h1
  · obtain ⟨b, hb, -⟩ := h.2.2.2.2.2 constTrig 1 rfl (by omega)
    rw [hb]
    rfl

/-! ### Row-advance bookkeeping (claim C2) -/

theorem vget_vset_self (v : Vec3) (i : ℕ) (q : ℚ) : vget (vset v i q) i = q := by
  match i with
  | 0 => rfl
  | 1 => rfl
  | n + 2 => rfl

/-- Configuration for the C2 counterexample (segmented mode, fixed medium
size, spacing 150). -/
def c2cfg : Config :=
  { block_count := 2, randomize_sizes := false, block_types := ["medium"],
    randomize_positions := true, grid_size := 32, spacing := 150, path_width := 512,
    rotation_mode := .noRotation, max_blocks_per_row := 3 }

/-- A long forward segment with a 512-wide corridor. -/
def c2seg : PathSegment :=
  { direction := .forward, length := 10000, width := 512, blocks := 2,
    start_pos := (0, 0, 0), end_pos := (0, 10000, 0) }

theorem segRetryLoop_entry_false (cfg : Config) (T : Trig) (seg : PathSegment)
    (block_size : Vec3) (all_solids : List Solid) (rot : ℚ) (bp : Vec3) (r : RNG) :
    segRetryLoop cfg T seg block_size all_solids rot 100 0 bp false r = (bp, 0, r) := by
  rw [show (100 : ℕ) = 99 + 1 from rfl, segRetryLoop_false]

/-- Mid-run state used by the amended claim's witness: one 96-long box in
row 1, cursor at `y = 246`, one row just ended with occupancy 1. -/
def c2st : SegState :=
  { solids := [⟨10, (-64, 0, 0), (96, 96, 32), 0⟩], current_progress := (0, 246, 0),
    blocks_generated := 1, current_row_blocks := 0, blocks_in_current_row := 1,
    stopped := false, rng := ⟨fun _ => 99/100, 0⟩ }

/-- The initial loop state `generate_segment_blocks` builds for `c2seg` at
segment index 0 with the scripted stream: draw 1 (row 2's offset) is
`99/100`, which pushes row 2's candidate out of the corridor; every other
draw is 0. -/
def c2init : SegState :=
  { solids := [], current_progress := (0, 0, 0), blocks_generated := 0,
    current_row_blocks := 0, blocks_in_current_row := 1, stopped := false,
    rng := ⟨fun n => if n = 1 then 99/100 else 0, 0⟩ }

/-- Counterexample to C2 as stated, on states the program itself produces:
starting from the segment generator's initial state, iteration 1 places row
1's box and advances the cursor to 246; iteration 2 ends row 2 by
abandonment with zero boxes placed in that row (the box list is unchanged
and non-empty), yet the cursor advances to 492 — by the *previous* row's box
length 96 plus the spacing 150 — while the claim requires an advance by the
spacing alone (to 396).  On abandonment the code sets the row-occupancy
counter to the row's target size, so the trailing-window maximum reaches
into row 1. -/
theorem c2_counterexample :
    (segStep c2cfg constTrig c2seg [] (segStep c2cfg constTrig c2seg [] c2init)).solids =
      (segStep c2cfg constTrig c2seg [] c2init).solids ∧
    (segStep c2cfg constTrig c2seg [] c2init).solids ≠ [] ∧
    (segStep c2cfg constTrig c2seg [] c2init).current_progress.2.1 = 246 ∧
    (segStep c2cfg constTrig c2seg [] (segStep c2cfg constTrig c2seg [] c2init)).current_progress.2.1 =
      492 ∧
    (492 : ℚ) ≠ 246 + c2cfg.spacing := by
  have hm : blockSizeOf "medium" = (96, 96, 32) := rfl
  have hstep1 : segStep c2cfg constTrig c2seg [] c2init =
      { solids := [⟨10, (0, 0, 0), (96, 96, 32), 0⟩], current_progress := (0, 246, 0),
        blocks_generated := 1, current_row_blocks := 0, blocks_in_current_row := 1,
        stopped := false, rng := ⟨c2init.rng.stream, 1⟩ } := by
    norm_num [segStep, segDrawCandidate, segCandidatePos, segRowCheck, segAxes,
      PathSegment.is_position_in_corridor, selectBlockSize, hm, pyUniform, pyRandint,
      RNG.next, get_rotation_angle, check_collision, check_collision_nil, vget, vset,
      snap_to_grid, pyRound, pyMaxD, c2cfg, c2seg, c2init, Int.fract,
      segRetryLoop_entry_false]
  have hstep2 : segStep c2cfg constTrig c2seg []
      { solids := [⟨10, (0, 0, 0), (96, 96, 32), 0⟩], current_progress := (0, 246, 0),
        blocks_generated := 1, current_row_blocks := 0, blocks_in_current_row := 1,
        stopped := false, rng := ⟨c2init.rng.stream, 1⟩ } =
      { solids := [⟨10, (0, 0, 0), (96, 96, 32), 0⟩], current_progress := (0, 492, 0),
        blocks_generated := 1, current_row_blocks := 0, blocks_in_current_row := 1,
        stopped := false, rng := ⟨c2init.rng.stream, 3⟩ } := by
    norm_num [segStep, segDrawCandidate, segCandidatePos, segRowCheck, segAxes,
      PathSegment.is_position_in_corridor, selectBlockSize, hm, pyUniform, pyRandint,
      RNG.next, get_rotation_angle, check_collision, vget, vset, snap_to_grid, pyRound,
      pyMaxD, c2cfg, c2seg, c2init, Int.fract]
  rw [hstep1, hstep2]
  refine ⟨rfl, by norm_num, rfl, rfl, by norm_num [c2cfg]⟩

/-- C2, amended: when a row ends, the cursor advances along the progress
axis, signed by the travel direction, by the spacing plus the maximum
progress-axis extent among the **last `current_row_blocks` boxes of the
segment's accumulated list** — on abandonment the occupancy counter is first
set to the row's target size, so this window can include boxes from earlier
rows — and the cursor advances by the spacing alone exactly when the segment
has not yet placed any boxes at all, not when the ended row happens to be
empty.  (Third clause: on a corridor-failure abandonment the occupancy
counter used for the window is the row's target size.) -/
theorem c2_advance_amended (cfg : Config) (seg : PathSegment) (st : SegState)
    (hrow : st.blocks_in_current_row ≤ st.current_row_blocks) :
    (st.solids ≠ [] →
      vget (segRowCheck cfg seg st).current_progress (segAxes seg.direction).progress_axis =
        vget st.current_progress (segAxes seg.direction).progress_axis +
          (pyMaxD ((st.solids.drop (st.solids.length - st.current_row_blocks)).map
              fun s => vget s.size (segAxes seg.direction).progress_size_idx) 0 +
            cfg.spacing) * (segAxes seg.direction).step_direction) ∧
    (st.solids = [] →
      vget (segRowCheck cfg seg st).current_progress (segAxes seg.direction).progress_axis =
        vget st.current_progress (segAxes seg.direction).progress_axis +
          cfg.spacing * (segAxes seg.direction).step_direction) ∧
    (∀ (T : Trig) (existing : List Solid),
      seg.is_position_in_corridor (segDrawCandidate cfg seg st).2.1
        (segDrawCandidate cfg seg st).1 = false →
      segStep cfg T seg existing st =
        segRowCheck cfg seg
          { st with current_row_blocks := st.blocks_in_current_row,
                    rng := (segDrawCandidate cfg seg st).2.2.2 }) := by
  refine ⟨fun hne => ?_, fun he => ?_,
    fun T existing hcorr => segStep_of_corridor_false cfg T seg existing st hcorr⟩
  · unfold segRowCheck
    rw [if_pos hrow]
    dsimp only
    rw [if_pos hne]
    repeat' split
    all_goals exact vget_vset_self _ _ _
  · unfold segRowCheck
    rw [if_pos hrow]
    dsimp only
    rw [if_neg (show ¬ st.solids ≠ [] from by simp [he])]
    repeat' split
    all_goals exact vget_vset_self _ _ _

/-- Witness for C2's amended claim: the counterexample state, one row ended
with occupancy 1 — the advance is the trailing box's 96 plus spacing 150. -/
theorem c2_advance_amended_witness :
    vget (segRowCheck c2cfg c2seg
        { c2st with current_row_blocks := 1 }).current_progress 1 = 492 := by
  have h := (c2_advance_amended c2cfg c2seg { c2st with current_row_blocks := 1 }
    (by norm_num [c2st])).1 (by norm_num [c2st])
  rw [show (segAxes c2seg.direction).progress_axis = 1 from rfl] at h
  rw [h]
  norm_num [c2st, c2cfg, c2seg, segAxes, pyMaxD, vget]

/-! ### Determinism in the random source (claim C7)

Two random states *agree* when they will deliver the same sequence of draws
from their current cursors onward.  Every operation of the engine consumes
draws only through `RNG.next`, so agreeing states yield equal values and
again-agreeing successor states; the generators are therefore functions of
the configuration and the delivered random sequence alone. -/

def RNG.Agrees (r1 r2 : RNG) : Prop :=
  ∀ n, r1.stream (r1.idx + n) = r2.stream (r2.idx + n)

/-- An RNG-consuming operation respects agreement: equal values, agreeing
successor states. -/
def RespectsAg {α : Type} (f : RNG → α × RNG) : Prop :=
  ∀ r1 r2, RNG.Agrees r1 r2 → (f r1).1 = (f r2).1 ∧ RNG.Agrees (f r1).2 (f r2).2

theorem next_respects : RespectsAg RNG.next := by
  intro r1 r2 h
  refine ⟨by simpa using h 0, fun n => ?_⟩
  simpa [RNG.next, Nat.add_assoc] using h (1 + n)

theorem pyUniform_respects (a b : ℚ) : RespectsAg (pyUniform a b) := by
  intro r1 r2 h
  obtain ⟨h1, h2⟩ := next_respects r1 r2 h
  exact ⟨by unfold pyUniform; rw [h1], h2⟩

theorem pyRandint_respects (a b : ℕ) : RespectsAg (pyRandint a b) := by
  intro r1 r2 h
  obtain ⟨h1, h2⟩ := next_respects r1 r2 h
  exact ⟨by unfold pyRandint; rw [h1], h2⟩

theorem pyChoice_respects {α : Type} (l : List α) (d : α) :
    RespectsAg (pyChoice l d) := by
  intro r1 r2 h
  obtain ⟨h1, h2⟩ := next_respects r1 r2 h
  exact ⟨by unfold pyChoice; rw [h1], h2⟩

theorem get_block_size_from_shapes_respects (shapes : List Shape) :
    RespectsAg (get_block_size_from_shapes shapes) := by
  intro r1 r2 h
  unfold get_block_size_from_shapes
  split
  · exact ⟨rfl, h⟩
  · obtain ⟨h1, h2⟩ := pyChoice_respects shapes ⟨(1, 1)⟩ r1 r2 h
    exact ⟨by dsimp only; rw [h1], h2⟩

theorem selectBlockSize_respects (cfg : Config) : RespectsAg (selectBlockSize cfg) := by
  intro r1 r2 h
  unfold selectBlockSize
  split
  · exact get_block_size_from_shapes_respects cfg.shapes r1 r2 h
  · split
    · obtain ⟨h1, h2⟩ := pyChoice_respects cfg.block_types "medium" r1 r2 h
      exact ⟨by dsimp only; rw [h1], h2⟩
    · exact ⟨rfl, h⟩

theorem get_rotation_angle_respects (mode : RotationMode) :
    RespectsAg (get_rotation_angle mode) := by
  intro r1 r2 h
  obtain ⟨hn1, hn2⟩ := next_respects r1 r2 h
  cases mode with
  | noRotation => exact ⟨rfl, h⟩
  | priorityStraight =>
    unfold get_rotation_angle
    dsimp only
    rw [hn1]
    split
    · exact ⟨rfl, hn2⟩
    · exact pyUniform_respects (-45) 45 _ _ hn2
  | fullRandom => exact pyUniform_respects (-45) 45 r1 r2 h

theorem flatCandidateX_respects (cfg : Config) (gen : ℕ) (size : Vec3) :
    RespectsAg (flatCandidateX cfg gen size) := by
  intro r1 r2 h
  unfold flatCandidateX
  split
  · obtain ⟨h1, h2⟩ := pyUniform_respects (-((cfg.path_width - size.1) / 2))
      ((cfg.path_width - size.1) / 2) r1 r2 h
    exact ⟨by dsimp only; rw [h1], h2⟩
  · exact ⟨rfl, h⟩

theorem flatRetryLoop_respects (cfg : Config) (T : Trig) (block_y block_z : ℚ)
    (block_size : Vec3) (solids : List Solid) (rot : ℚ) :
    ∀ (n attempts : ℕ) (bx : ℚ) (col : Bool) (r1 r2 : RNG), RNG.Agrees r1 r2 →
      (flatRetryLoop cfg T block_y block_z block_size solids rot n attempts bx col r1).1 =
        (flatRetryLoop cfg T block_y block_z block_size solids rot n attempts bx col r2).1 ∧
      (flatRetryLoop cfg T block_y block_z block_size solids rot n attempts bx col r1).2.1 =
        (flatRetryLoop cfg T block_y block_z block_size solids rot n attempts bx col r2).2.1 ∧
      RNG.Agrees
        (flatRetryLoop cfg T block_y block_z block_size solids rot n attempts bx col r1).2.2.2
        (flatRetryLoop cfg T block_y block_z block_size solids rot n attempts bx col r2).2.2.2 := by
  intro n
  induction n with
  | zero => intro attempts bx col r1 r2 h; exact ⟨rfl, rfl, h⟩
  | succ n ih =>
    intro attempts bx col r1 r2 h
    cases col with
    | false => rw [flatRetryLoop_false, flatRetryLoop_false]; exact ⟨rfl, rfl, h⟩
    | true =>
      rw [flatRetryLoop_true, flatRetryLoop_true]
      obtain ⟨h1, h2⟩ := pyUniform_respects (-((cfg.path_width - block_size.1) / 2))
        ((cfg.path_width - block_size.1) / 2) r1 r2 h
      rw [h1]
      exact ih _ _ _ _ _ h2

/-- Flat-mode loop states that differ at most in their (agreeing) random
state. -/
def FlatAg (s1 s2 : FlatState) : Prop :=
  s1.solids = s2.solids ∧ s1.current_y = s2.current_y ∧
  s1.blocks_generated = s2.blocks_generated ∧
  s1.current_row_blocks = s2.current_row_blocks ∧
  s1.blocks_in_current_row = s2.blocks_in_current_row ∧ RNG.Agrees s1.rng s2.rng

theorem flatRowCheck_respects (cfg : Config) (s1 s2 : FlatState)
    (h : FlatAg s1 s2) : FlatAg (flatRowCheck cfg s1) (flatRowCheck cfg s2) := by
  rcases s1 with ⟨so1, cy1, g1, crb1, bic1, ra⟩
  rcases s2 with ⟨so2, cy2, g2, crb2, bic2, rb⟩
  obtain ⟨e1, e2, e3, e4, e5, hag⟩ := h
  dsimp only at e1 e2 e3 e4 e5 hag
  subst e1; subst e2; subst e3; subst e4; subst e5
  unfold flatRowCheck
  dsimp only
  by_cases hrow : bic1 ≤ crb1
  · rw [if_pos hrow, if_pos hrow]
    by_cases hg : 0 < g1
    · obtain ⟨h1, h2⟩ := pyRandint_respects 1 cfg.max_blocks_per_row ra rb hag
      rw [if_pos hg, if_pos hg]
      exact ⟨rfl, rfl, rfl, rfl, h1, h2⟩
    · rw [if_neg hg, if_neg hg]
      exact ⟨rfl, rfl, rfl, rfl, rfl, hag⟩
  · rw [if_neg hrow, if_neg hrow]
    exact ⟨rfl, rfl, rfl, rfl, rfl, hag⟩

theorem flatStep_respects (cfg : Config) (T : Trig) (s1 s2 : FlatState)
    (h : FlatAg s1 s2) : FlatAg (flatStep cfg T s1) (flatStep cfg T s2) := by
  rcases s1 with ⟨so1, cy1, g1, crb1, bic1, ra⟩
  rcases s2 with ⟨so2, cy2, g2, crb2, bic2, rb⟩
  obtain ⟨e1, e2, e3, e4, e5, hag⟩ := h
  dsimp only at e1 e2 e3 e4 e5 hag
  subst e1; subst e2; subst e3; subst e4; subst e5
  unfold flatStep
  dsimp only
  obtain ⟨hs1, hs2⟩ := selectBlockSize_respects cfg ra rb hag
  rw [hs1]
  obtain ⟨hc1, hc2⟩ := flatCandidateX_respects cfg g1 (selectBlockSize cfg rb).1
    (selectBlockSize cfg ra).2 (selectBlockSize cfg rb).2 hs2
  rw [hc1]
  obtain ⟨hr1, hr2⟩ := get_rotation_angle_respects cfg.rotation_mode
    (flatCandidateX cfg g1 (selectBlockSize cfg rb).1 (selectBlockSize cfg ra).2).2
    (flatCandidateX cfg g1 (selectBlockSize cfg rb).1 (selectBlockSize cfg rb).2).2 hc2
  rw [hr1]
  obtain ⟨hl1, hl2, hl3⟩ := flatRetryLoop_respects cfg T
    (snap_to_grid cfg.grid_size cy1) (snap_to_grid cfg.grid_size cfg.start_pos.2.2)
    (selectBlockSize cfg rb).1 so1
    (get_rotation_angle cfg.rotation_mode
      (flatCandidateX cfg g1 (selectBlockSize cfg rb).1 (selectBlockSize cfg rb).2).2).1
    100 0
    (snap_to_grid cfg.grid_size
      (flatCandidateX cfg g1 (selectBlockSize cfg rb).1 (selectBlockSize cfg rb).2).1)
    (check_collision T
      (snap_to_grid cfg.grid_size
        (flatCandidateX cfg g1 (selectBlockSize cfg rb).1 (selectBlockSize cfg rb).2).1,
        snap_to_grid cfg.grid_size cy1, snap_to_grid cfg.grid_size cfg.start_pos.2.2)
      (selectBlockSize cfg rb).1 so1
      (get_rotation_angle cfg.rotation_mode
        (flatCandidateX cfg g1 (selectBlockSize cfg rb).1 (selectBlockSize cfg rb).2).2).1)
    _ _ hr2
  rw [hl1, hl2]
  set res := flatRetryLoop cfg T
    (snap_to_grid cfg.grid_size cy1) (snap_to_grid cfg.grid_size cfg.start_pos.2.2)
    (selectBlockSize cfg rb).1 so1
    (get_rotation_angle cfg.rotation_mode
      (flatCandidateX cfg g1 (selectBlockSize cfg rb).1 (selectBlockSize cfg rb).2).2).1
    100 0
    (snap_to_grid cfg.grid_size
      (flatCandidateX cfg g1 (selectBlockSize cfg rb).1 (selectBlockSize cfg rb).2).1)
    (check_collision T
      (snap_to_grid cfg.grid_size
        (flatCandidateX cfg g1 (selectBlockSize cfg rb).1 (selectBlockSize cfg rb).2).1,
        snap_to_grid cfg.grid_size cy1, snap_to_grid cfg.grid_size cfg.start_pos.2.2)
      (selectBlockSize cfg rb).1 so1
      (get_rotation_angle cfg.rotation_mode
        (flatCandidateX cfg g1 (selectBlockSize cfg rb).1 (selectBlockSize cfg rb).2).2).1)
    (get_rotation_angle cfg.rotation_mode
      (flatCandidateX cfg g1 (selectBlockSize cfg rb).1 (selectBlockSize cfg rb).2).2).2
  by_cases hC : 100 ≤ res.2.1
  · rw [if_pos hC, if_pos hC]
    exact flatRowCheck_respects cfg _ _ ⟨rfl, rfl, rfl, rfl, rfl, hl3⟩
  · rw [if_neg hC, if_neg hC]
    exact flatRowCheck_respects cfg _ _ ⟨rfl, rfl, rfl, rfl, rfl, hl3⟩

theorem flatAux_respects (cfg : Config) (T : Trig) :
    ∀ (fuel : ℕ) (s1 s2 : FlatState), FlatAg s1 s2 →
      FlatAg (flatAux cfg T fuel s1) (flatAux cfg T fuel s2) := by
  intro fuel
  induction fuel with
  | zero => intro s1 s2 h; exact h
  | succ fuel ih =>
    intro s1 s2 h
    rw [flatAux, flatAux]
    rw [h.2.2.1]
    split
    · exact ih _ _ (flatStep_respects cfg T s1 s2 h)
    · exact h

/-- Segment-mode loop states that differ at most in their (agreeing) random
state. -/
def SegAg (s1 s2 : SegState) : Prop :=
  s1.solids = s2.solids ∧ s1.current_progress = s2.current_progress ∧
  s1.blocks_generated = s2.blocks_generated ∧
  s1.current_row_blocks = s2.current_row_blocks ∧
  s1.blocks_in_current_row = s2.blocks_in_current_row ∧
  s1.stopped = s2.stopped ∧ RNG.Agrees s1.rng s2.rng

theorem segCandidatePos_respects (cfg : Config) (seg : PathSegment) (gen : ℕ)
    (size bp0 : Vec3) : RespectsAg (segCandidatePos cfg seg gen size bp0) := by
  intro r1 r2 h
  unfold segCandidatePos
  dsimp only
  split
  · obtain ⟨h1, h2⟩ := pyUniform_respects
      (-((seg.width - vget size (segAxes seg.direction).fixed_size_idx) / 2))
      ((seg.width - vget size (segAxes seg.direction).fixed_size_idx) / 2) r1 r2 h
    exact ⟨by dsimp only; rw [h1], h2⟩
  · exact ⟨rfl, h⟩

theorem segDrawCandidate_respects (cfg : Config) (seg : PathSegment)
    (s1 s2 : SegState) (h : SegAg s1 s2) :
    (segDrawCandidate cfg seg s1).1 = (segDrawCandidate cfg seg s2).1 ∧
    (segDrawCandidate cfg seg s1).2.1 = (segDrawCandidate cfg seg s2).2.1 ∧
    (segDrawCandidate cfg seg s1).2.2.1 = (segDrawCandidate cfg seg s2).2.2.1 ∧
    RNG.Agrees (segDrawCandidate cfg seg s1).2.2.2 (segDrawCandidate cfg seg s2).2.2.2 := by
  rcases s1 with ⟨so1, cp1, g1, crb1, bic1, sp1, ra⟩
  rcases s2 with ⟨so2, cp2, g2, crb2, bic2, sp2, rb⟩
  obtain ⟨e1, e2, e3, e4, e5, e6, hag⟩ := h
  dsimp only at e1 e2 e3 e4 e5 e6 hag
  subst e1; subst e2; subst e3; subst e4; subst e5; subst e6
  unfold segDrawCandidate
  dsimp only
  obtain ⟨hs1, hs2⟩ := selectBlockSize_respects cfg ra rb hag
  rw [hs1]
  obtain ⟨hc1, hc2⟩ := segCandidatePos_respects cfg seg g1 (selectBlockSize cfg rb).1 cp1
    (selectBlockSize cfg ra).2 (selectBlockSize cfg rb).2 hs2
  rw [hc1]
  obtain ⟨hr1, hr2⟩ := get_rotation_angle_respects cfg.rotation_mode
    (segCandidatePos cfg seg g1 (selectBlockSize cfg rb).1 cp1 (selectBlockSize cfg ra).2).2
    (segCandidatePos cfg seg g1 (selectBlockSize cfg rb).1 cp1 (selectBlockSize cfg rb).2).2 hc2
  rw [hr1]
  exact ⟨rfl, rfl, rfl, hr2⟩

theorem segRetryLoop_respects (cfg : Config) (T : Trig) (seg : PathSegment)
    (block_size : Vec3) (all_solids : List Solid) (rot : ℚ) :
    ∀ (n attempts : ℕ) (bp : Vec3) (col : Bool) (r1 r2 : RNG), RNG.Agrees r1 r2 →
      (segRetryLoop cfg T seg block_size all_solids rot n attempts bp col r1).1 =
        (segRetryLoop cfg T seg block_size all_solids rot n attempts bp col r2).1 ∧
      (segRetryLoop cfg T seg block_size all_solids rot n attempts bp col r1).2.1 =
        (segRetryLoop cfg T seg block_size all_solids rot n attempts bp col r2).2.1 ∧
      RNG.Agrees
        (segRetryLoop cfg T seg block_size all_solids rot n attempts bp col r1).2.2
        (segRetryLoop cfg T seg block_size all_solids rot n attempts bp col r2).2.2 := by
  intro n
  induction n with
  | zero => intro attempts bp col r1 r2 h; exact ⟨rfl, rfl, h⟩
  | succ n ih =>
    intro attempts bp col r1 r2 h
    cases col with
    | false => rw [segRetryLoop_false, segRetryLoop_false]; exact ⟨rfl, rfl, h⟩
    | true =>
      rw [segRetryLoop_true, segRetryLoop_true]
      dsimp only
      obtain ⟨h1, h2⟩ := pyUniform_respects
        (-((seg.width - vget block_size (segAxes seg.direction).fixed_size_idx) / 2))
        ((seg.width - vget block_size (segAxes seg.direction).fixed_size_idx) / 2) r1 r2 h
      rw [h1]
      split
      · exact ⟨rfl, rfl, h2⟩
      · exact ih _ _ _ _ _ h2

theorem segRowCheck_respects (cfg : Config) (seg : PathSegment) (s1 s2 : SegState)
    (h : SegAg s1 s2) : SegAg (segRowCheck cfg seg s1) (segRowCheck cfg seg s2) := by
  rcases s1 with ⟨so1, cp1, g1, crb1, bic1, sp1, ra⟩
  rcases s2 with ⟨so2, cp2, g2, crb2, bic2, sp2, rb⟩
  obtain ⟨e1, e2, e3, e4, e5, e6, hag⟩ := h
  dsimp only at e1 e2 e3 e4 e5 e6 hag
  subst e1; subst e2; subst e3; subst e4; subst e5; subst e6
  unfold segRowCheck
  dsimp only
  split
  · repeat' split
    all_goals
      first
        | exact ⟨rfl, rfl, rfl, rfl, rfl, rfl, hag⟩
        | (obtain ⟨h1, h2⟩ := pyRandint_respects 1 cfg.max_blocks_per_row ra rb hag
           exact ⟨rfl, rfl, rfl, rfl, h1, rfl, h2⟩)
  · exact ⟨rfl, rfl, rfl, rfl, rfl, rfl, hag⟩

theorem segStep_respects (cfg : Config) (T : Trig) (seg : PathSegment)
    (existing : List Solid) (s1 s2 : SegState) (h : SegAg s1 s2) :
    SegAg (segStep cfg T seg existing s1) (segStep cfg T seg existing s2) := by
  obtain ⟨hd1, hd2, hd3, hd4⟩ := segDrawCandidate_respects cfg seg s1 s2 h
  rcases s1 with ⟨so1, cp1, g1, crb1, bic1, sp1, ra⟩
  rcases s2 with ⟨so2, cp2, g2, crb2, bic2, sp2, rb⟩
  obtain ⟨e1, e2, e3, e4, e5, e6, hag⟩ := h
  dsimp only at e1 e2 e3 e4 e5 e6 hag
  subst e1; subst e2; subst e3; subst e4; subst e5; subst e6
  unfold segStep
  dsimp only
  rw [hd1, hd2, hd3]
  obtain ⟨hl1, hl2, hl3⟩ := segRetryLoop_respects cfg T seg
    (segDrawCandidate cfg seg ⟨so1, cp1, g1, crb1, bic1, sp1, rb⟩).1 (existing ++ so1)
    (segDrawCandidate cfg seg ⟨so1, cp1, g1, crb1, bic1, sp1, rb⟩).2.2.1 100 0
    (segDrawCandidate cfg seg ⟨so1, cp1, g1, crb1, bic1, sp1, rb⟩).2.1
    (check_collision T (segDrawCandidate cfg seg ⟨so1, cp1, g1, crb1, bic1, sp1, rb⟩).2.1
      (segDrawCandidate cfg seg ⟨so1, cp1, g1, crb1, bic1, sp1, rb⟩).1 (existing ++ so1)
      (segDrawCandidate cfg seg ⟨so1, cp1, g1, crb1, bic1, sp1, rb⟩).2.2.1)
    _ _ hd4
  rw [hl1, hl2]
  split
  · exact segRowCheck_respects cfg seg _ _ ⟨rfl, rfl, rfl, rfl, rfl, rfl, hd4⟩
  · split
    · exact segRowCheck_respects cfg seg _ _ ⟨rfl, rfl, rfl, rfl, rfl, rfl, hl3⟩
    · exact segRowCheck_respects cfg seg _ _ ⟨rfl, rfl, rfl, rfl, rfl, rfl, hl3⟩

theorem segAux_respects (cfg : Config) (T : Trig) (seg : PathSegment)
    (existing : List Solid) :
    ∀ (fuel : ℕ) (s1 s2 : SegState), SegAg s1 s2 →
      SegAg (segAux cfg T seg existing fuel s1) (segAux cfg T seg existing fuel s2) := by
  intro fuel
  induction fuel with
  | zero => intro s1 s2 h; exact h
  | succ fuel ih =>
    intro s1 s2 h
    rw [segAux, segAux, h.2.2.1, h.2.2.2.2.2.1]
    split
    · exact ih _ _ (segStep_respects cfg T seg existing s1 s2 h)
    · exact h

theorem generate_segment_blocks_respects (cfg : Config) (T : Trig) (seg : PathSegment)
    (existing : List Solid) (seg_idx : ℕ) (fuel : ℕ) (r1 r2 : RNG)
    (h : RNG.Agrees r1 r2) :
    (generate_segment_blocks cfg T seg existing seg_idx r1 fuel).1 =
      (generate_segment_blocks cfg T seg existing seg_idx r2 fuel).1 ∧
    RNG.Agrees (generate_segment_blocks cfg T seg existing seg_idx r1 fuel).2
      (generate_segment_blocks cfg T seg existing seg_idx r2 fuel).2 := by
  unfold generate_segment_blocks
  dsimp only
  have hinit : ((if seg_idx = 0 then ((1 : ℕ), r1)
        else pyRandint 1 cfg.max_blocks_per_row r1)).1 =
      ((if seg_idx = 0 then ((1 : ℕ), r2) else pyRandint 1 cfg.max_blocks_per_row r2)).1 ∧
      RNG.Agrees
        ((if seg_idx = 0 then ((1 : ℕ), r1) else pyRandint 1 cfg.max_blocks_per_row r1)).2
        ((if seg_idx = 0 then ((1 : ℕ), r2) else pyRandint 1 cfg.max_blocks_per_row r2)).2 := by
    split
    · exact ⟨rfl, h⟩
    · exact pyRandint_respects 1 cfg.max_blocks_per_row r1 r2 h
  rw [hinit.1]
  have := segAux_respects cfg T seg existing fuel
    { solids := [], current_progress := seg.start_pos, blocks_generated := 0,
      current_row_blocks := 0,
      blocks_in_current_row :=
        (if seg_idx = 0 then ((1 : ℕ), r2) else pyRandint 1 cfg.max_blocks_per_row r2).1,
      stopped := false,
      rng := (if seg_idx = 0 then ((1 : ℕ), r1) else pyRandint 1 cfg.max_blocks_per_row r1).2 }
    { solids := [], current_progress := seg.start_pos, blocks_generated := 0,
      current_row_blocks := 0,
      blocks_in_current_row :=
        (if seg_idx = 0 then ((1 : ℕ), r2) else pyRandint 1 cfg.max_blocks_per_row r2).1,
      stopped := false,
      rng := (if seg_idx = 0 then ((1 : ℕ), r2) else pyRandint 1 cfg.max_blocks_per_row r2).2 }
    ⟨rfl, rfl, rfl, rfl, rfl, rfl, hinit.2⟩
  exact ⟨this.1, this.2.2.2.2.2.2⟩

theorem processSegments_respects (cfg : Config) (T : Trig) (fuel : ℕ) :
    ∀ (segs : List PathSegment) (seg_idx : ℕ) (solids : List Solid) (r1 r2 : RNG),
      RNG.Agrees r1 r2 →
      (processSegments cfg T fuel segs seg_idx solids r1).1 =
        (processSegments cfg T fuel segs seg_idx solids r2).1 := by
  intro segs
  induction segs with
  | nil => intro seg_idx solids r1 r2 h; rfl
  | cons seg rest ih =>
    intro seg_idx solids r1 r2 h
    rw [processSegments, processSegments]
    obtain ⟨h1, h2⟩ := generate_segment_blocks_respects cfg T seg solids seg_idx fuel r1 r2 h
    rw [h1]
    exact ih _ _ _ _ h2

/-- C7: generation is deterministic in the random source.  Two calls to
`generate_straight_line` or `generate_with_pattern` with identical
configuration and random states that deliver the same draw sequence produce
identical box lists — same ids, positions, sizes and rotations, in the same
order.  (In this embedding the random source is an explicit injectable
state, so the generators are functions of the configuration and that state
alone: no other hidden mutable input exists.) -/
theorem c7_determinism (cfg : Config) (T : Trig) (r1 r2 : RNG) (fuel : ℕ)
    (h : RNG.Agrees r1 r2) :
    generate_straight_line cfg T r1 fuel = generate_straight_line cfg T r2 fuel ∧
    generate_with_pattern cfg T r1 fuel = generate_with_pattern cfg T r2 fuel := by
  constructor
  · exact (flatAux_respects cfg T fuel (flatInit cfg r1) (flatInit cfg r2)
      ⟨rfl, rfl, rfl, rfl, rfl, h⟩).1
  · exact processSegments_respects cfg T fuel _ 0 [] r1 r2 h

/-- Witness for C7: two differently-represented random states delivering the
same sequence. -/
theorem c7_determinism_witness :
    generate_straight_line { } constTrig ⟨fun n => (n : ℚ) / (n + 1), 0⟩ 3 =
      generate_straight_line { } constTrig ⟨fun n => ((n + 5 : ℕ) - 5 : ℚ) / (n + 1), 0⟩ 3 ∧
    generate_with_pattern { } constTrig ⟨fun n => (n : ℚ) / (n + 1), 0⟩ 3 =
      generate_with_pattern { } constTrig ⟨fun n => ((n + 5 : ℕ) - 5 : ℚ) / (n + 1), 0⟩ 3 := by
  refine c7_determinism { } constTrig _ _ 3 fun n => ?_
  dsimp only
  norm_num

/-! ### Flat-mode termination (claim C10)

Strategy: every loop iteration either places a box (bounded by the block
count) or abandons its row, which advances the cursor by at least the
spacing; catalog footprints and the `|cos|, |sin| ≤ 1` oracle bounds keep
every stored box's y-extent within 352 units of its snapped placement
cursor, so after finitely many abandonments the snapped cursor clears all
existing boxes by more than the 224-unit half-diagonal of any candidate and
the next candidate cannot collide.  A natural-number potential combining the
remaining quota and the distance-to-clearance therefore decreases at every
iteration. -/

theorem pyRound_bounds (q : ℚ) :
    q - 1/2 ≤ (pyRound q : ℚ) ∧ (pyRound q : ℚ) ≤ q + 1/2 := by
  have hfl := Int.floor_le q
  have hfu := Int.lt_floor_add_one q
  unfold pyRound
  dsimp only
  split_ifs <;> constructor <;> push_cast <;> linarith

theorem snap_bounds (g v : ℚ) (hg : 0 < g) :
    v - g / 2 ≤ snap_to_grid g v ∧ snap_to_grid g v ≤ v + g / 2 := by
  obtain ⟨h1, h2⟩ := pyRound_bounds (v / g)
  have hv : v / g * g = v := div_mul_cancel₀ v (ne_of_gt hg)
  unfold snap_to_grid
  constructor <;> nlinarith

/-- Footprint bounds satisfied by every catalog size. -/
def sizeOK (s : Vec3) : Prop :=
  0 ≤ s.1 ∧ s.1 ≤ 192 ∧ 0 ≤ s.2.1 ∧ s.2.1 ≤ 256

theorem lookup_mem_snd {α β : Type} [BEq α] :
    ∀ (l : List (α × β)) (k : α) (v : β), l.lookup k = some v → v ∈ l.map Prod.snd := by
  intro l
  induction l with
  | nil => intro k v h; simp [List.lookup] at h
  | cons a t ih =>
    intro k v h
    rw [List.lookup] at h
    split at h
    · simp at h
      simp [h]
    · simpa using Or.inr (ih k v h)

theorem blockSizeOf_sizeOK (name : String)
    (h : (BLOCK_SIZES.lookup name).isSome) : sizeOK (blockSizeOf name) := by
  obtain ⟨v, hv⟩ := Option.isSome_iff_exists.1 h
  have hmem := lookup_mem_snd BLOCK_SIZES name v hv
  have hbs : blockSizeOf name = v := by rw [blockSizeOf, hv]; rfl
  rw [hbs]
  simp only [BLOCK_SIZES, List.map, List.mem_cons, List.not_mem_nil, or_false] at hmem
  rcases hmem with rfl | rfl | rfl | rfl | rfl <;>
    exact ⟨by norm_num, by norm_num, by norm_num, by norm_num⟩

theorem selectBlockSize_sizeOK (cfg : Config) (r : RNG)
    (hsh : cfg.shapes = []) (hbt : cfg.block_types ≠ [])
    (hval : ∀ t ∈ cfg.block_types, (BLOCK_SIZES.lookup t).isSome) :
    sizeOK (selectBlockSize cfg r).1 := by
  unfold selectBlockSize
  rw [if_neg (by simp [hsh])]
  split
  · exact blockSizeOf_sizeOK _ (hval _ (pyChoice_mem cfg.block_types "medium" r hbt))
  · exact blockSizeOf_sizeOK _ (hval _ (headD_mem cfg.block_types "medium" hbt))

theorem le_foldl_max (x : ℚ) : ∀ (xs : List ℚ), x ≤ xs.foldl max x := by
  intro xs
  induction xs generalizing x with
  | nil => exact le_refl x
  | cons y ys ih => exact le_trans (le_max_left x y) (ih (max x y))

theorem foldl_max_le (B : ℚ) :
    ∀ (xs : List ℚ) (x : ℚ), x ≤ B → (∀ y ∈ xs, y ≤ B) → xs.foldl max x ≤ B := by
  intro xs
  induction xs with
  | nil => intro x hx _; exact hx
  | cons y ys ih =>
    intro x hx hall
    exact ih (max x y) (max_le hx (hall y (by simp))) fun z hz => hall z (by simp [hz])

theorem mem_le_foldl_max (B : ℚ) :
    ∀ (xs : List ℚ) (x : ℚ), B ∈ xs → B ≤ xs.foldl max x := by
  intro xs
  induction xs with
  | nil => intro x h; simp at h
  | cons y ys ih =>
    intro x h
    rcases List.mem_cons.1 h with rfl | h
    · exact le_trans (le_max_right x B) (le_foldl_max _ ys)
    · exact ih (max x y) h

theorem pyMaxD_nonneg (l : List ℚ) (h : ∀ x ∈ l, 0 ≤ x) : 0 ≤ pyMaxD l 0 := by
  cases l with
  | nil => exact le_refl 0
  | cons x xs => exact le_trans (h x (by simp)) (le_foldl_max x xs)

theorem pyMaxD_le (l : List ℚ) (B : ℚ) (hne : l ≠ []) (h : ∀ x ∈ l, x ≤ B) :
    pyMaxD l 0 ≤ B := by
  cases l with
  | nil => exact absurd rfl hne
  | cons x xs => exact foldl_max_le B xs x (h x (by simp)) fun y hy => h y (by simp [hy])

theorem mem_le_pyMaxD (l : List ℚ) (x : ℚ) (h : x ∈ l) : x ≤ pyMaxD l 0 := by
  cases l with
  | nil => simp at h
  | cons a t =>
    rcases List.mem_cons.1 h with rfl | h
    · exact le_foldl_max x t
    · exact mem_le_foldl_max x t a h

theorem corner_off_bound (dx dy c sn A B : ℚ) (hc : |c| ≤ 1) (hs : |sn| ≤ 1)
    (hdx : |dx| ≤ A) (hdy : |dy| ≤ B) : |dx * sn + dy * c| ≤ A + B := by
  calc |dx * sn + dy * c| ≤ |dx * sn| + |dy * c| := abs_add _ _
    _ = |dx| * |sn| + |dy| * |c| := by rw [abs_mul, abs_mul]
    _ ≤ A * 1 + B * 1 :=
        add_le_add
          (mul_le_mul hdx hs (abs_nonneg sn) (le_trans (abs_nonneg dx) hdx))
          (mul_le_mul hdy hc (abs_nonneg c) (le_trans (abs_nonneg dy) hdy))
    _ = A + B := by ring

theorem ry_bound (cx cy c sn vx vy A B : ℚ) (hc : |c| ≤ 1) (hs : |sn| ≤ 1)
    (hdx : |vx - cx| ≤ A) (hdy : |vy - cy| ≤ B) :
    cy - (A + B) ≤ (vx - cx) * sn + (vy - cy) * c + cy ∧
    (vx - cx) * sn + (vy - cy) * c + cy ≤ cy + (A + B) := by
  have h := abs_le.1 (corner_off_bound (vx - cx) (vy - cy) c sn A B hc hs hdx hdy)
  constructor <;> linarith [h.1, h.2]

/-- Planar y-extent of the collision bounds of any box: within the
half-perimeter of its centre, for any oracle with `|cos|, |sin| ≤ 1`. -/
theorem solidAABB_y_bounds (T : Trig) (s : Solid) (hw : 0 ≤ s.size.1)
    (hl : 0 ≤ s.size.2.1) :
    s.pos.2.1 - s.size.1 / 2 ≤ (solidAABB T s).min_y ∧
    (solidAABB T s).max_y ≤ s.pos.2.1 + s.size.2.1 + s.size.1 / 2 := by
  unfold solidAABB
  split
  · unfold Solid.get_rotated_bounds
    dsimp only
    have hc := T.abs_cosd_le s.rotation_z
    have hs := T.abs_sind_le s.rotation_z
    have habsl : |s.pos.1 - (s.pos.1 + s.size.1 / 2)| ≤ s.size.1 / 2 := by
      rw [show s.pos.1 - (s.pos.1 + s.size.1 / 2) = -(s.size.1 / 2) from by ring,
        abs_neg, abs_of_nonneg (by linarith)]
    have habsr : |s.pos.1 + s.size.1 - (s.pos.1 + s.size.1 / 2)| ≤ s.size.1 / 2 := by
      rw [show s.pos.1 + s.size.1 - (s.pos.1 + s.size.1 / 2) = s.size.1 / 2 from by ring,
        abs_of_nonneg (by linarith)]
    have habst : |s.pos.2.1 + s.size.2.1 - (s.pos.2.1 + s.size.2.1 / 2)| ≤ s.size.2.1 / 2 := by
      rw [show s.pos.2.1 + s.size.2.1 - (s.pos.2.1 + s.size.2.1 / 2) = s.size.2.1 / 2 from
        by ring, abs_of_nonneg (by linarith)]
    have habsb : |s.pos.2.1 - (s.pos.2.1 + s.size.2.1 / 2)| ≤ s.size.2.1 / 2 := by
      rw [show s.pos.2.1 - (s.pos.2.1 + s.size.2.1 / 2) = -(s.size.2.1 / 2) from by ring,
        abs_neg, abs_of_nonneg (by linarith)]
    have h1 := ry_bound (s.pos.1 + s.size.1 / 2) (s.pos.2.1 + s.size.2.1 / 2)
      (T.cosd s.rotation_z) (T.sind s.rotation_z) s.pos.1 (s.pos.2.1 + s.size.2.1)
      (s.size.1 / 2) (s.size.2.1 / 2) hc hs habsl habst
    have h2 := ry_bound (s.pos.1 + s.size.1 / 2) (s.pos.2.1 + s.size.2.1 / 2)
      (T.cosd s.rotation_z) (T.sind s.rotation_z) (s.pos.1 + s.size.1)
      (s.pos.2.1 + s.size.2.1) (s.size.1 / 2) (s.size.2.1 / 2) hc hs habsr habst
    have h3 := ry_bound (s.pos.1 + s.size.1 / 2) (s.pos.2.1 + s.size.2.1 / 2)
      (T.cosd s.rotation_z) (T.sind s.rotation_z) (s.pos.1 + s.size.1) s.pos.2.1
      (s.size.1 / 2) (s.size.2.1 / 2) hc hs habsr habsb
    have h4 := ry_bound (s.pos.1 + s.size.1 / 2) (s.pos.2.1 + s.size.2.1 / 2)
      (T.cosd s.rotation_z) (T.sind s.rotation_z) s.pos.1 s.pos.2.1
      (s.size.1 / 2) (s.size.2.1 / 2) hc hs habsl habsb
    constructor
    · refine le_min (le_min ?_ ?_) (le_min ?_ ?_) <;>
        linarith [h1.1, h2.1, h3.1, h4.1]
    · refine max_le (max_le ?_ ?_) (max_le ?_ ?_) <;>
        linarith [h1.2, h2.2, h3.2, h4.2]
  · exact ⟨by dsimp only; linarith, by dsimp only; linarith⟩

/-- When every existing box's y-extent ends at least 96 units below the
candidate row's snapped y, no candidate of catalog size can collide. -/
theorem check_collision_far (T : Trig) (bx byv bz : ℚ) (size : Vec3)
    (solids : List Solid) (rot : ℚ) (hsz : sizeOK size)
    (hfar : ∀ s ∈ solids, (solidAABB T s).max_y ≤ byv - 96) :
    check_collision T (bx, byv, bz) size solids rot = false := by
  rw [check_collision_eq_false]
  intro s hs
  have hc := solidAABB_y_bounds T ⟨9999, (bx, byv, bz), size, rot⟩ hsz.1 hsz.2.2.1
  unfold solidsCollide
  dsimp only
  rw [decide_eq_false_iff_not]
  rintro ⟨hx, ⟨hy1, hy2⟩, hz⟩
  have hfs := hfar s hs
  have hw : size.1 ≤ 192 := hsz.2.1
  have hmin : byv - size.1 / 2 ≤
      (solidAABB T ⟨9999, (bx, byv, bz), size, rot⟩).min_y := hc.1
  linarith

/-- Largest collision-bound y-extent among stored boxes (0 for none). -/
def maxYB (T : Trig) (l : List Solid) : ℚ :=
  pyMaxD (l.map fun s => (solidAABB T s).max_y) 0

/-- Rows (of at least one spacing each) still needed before the snapped
cursor clears every stored box by the candidate half-width margin. -/
def dGap (cfg : Config) (T : Trig) (st : FlatState) : ℕ :=
  if st.solids = [] then 0
  else (⌈(maxYB T st.solids + 96 + cfg.grid_size / 2 - st.current_y) / cfg.spacing⌉).toNat

/-- Upper bound on `dGap` at any reachable state. -/
def kBound (cfg : Config) : ℕ := (⌈(448 + cfg.grid_size) / cfg.spacing⌉).toNat

/-- Loop variant: remaining quota, weighted to absorb one full clearance
climb per placement, plus the current distance to clearance. -/
def flatPotential (cfg : Config) (T : Trig) (st : FlatState) : ℕ :=
  (cfg.block_count - st.blocks_generated) * (kBound cfg + 1) + dGap cfg T st

/-- The configurations reachable through the public setters, with the legacy
size catalog in use (claim C10's hypotheses). -/
structure GoodCfg (cfg : Config) : Prop where
  count_pos : 1 ≤ cfg.block_count
  spacing_ge : 50 ≤ cfg.spacing
  width_ge : 128 ≤ cfg.path_width
  maxrow_ge : 1 ≤ cfg.max_blocks_per_row
  maxrow_le : cfg.max_blocks_per_row ≤ 10
  types_ne : cfg.block_types ≠ []
  types_valid : ∀ t ∈ cfg.block_types, (BLOCK_SIZES.lookup t).isSome
  grid_pos : 0 < cfg.grid_size
  shapes_nil : cfg.shapes = []

/-- Loop invariant of `generate_straight_line`. -/
structure FlatLoopInv (cfg : Config) (T : Trig) (st : FlatState) : Prop where
  len_eq : st.solids.length = st.blocks_generated
  gen_le : st.blocks_generated ≤ cfg.block_count
  sizes : ∀ s ∈ st.solids, sizeOK s.size
  ybound : ∀ s ∈ st.solids,
    (solidAABB T s).max_y ≤ st.current_y + cfg.grid_size / 2 + 352

theorem dGap_zero_safe (cfg : Config) (T : Trig) (st : FlatState)
    (hg : 0 < cfg.grid_size) (hsp : 0 < cfg.spacing)
    (h : dGap cfg T st = 0) :
    ∀ s ∈ st.solids,
      (solidAABB T s).max_y ≤ snap_to_grid cfg.grid_size st.current_y - 96 := by
  intro s hs
  have hnil : st.solids ≠ [] := fun hn => by simp [hn] at hs
  rw [dGap, if_neg hnil] at h
  have hle : (⌈(maxYB T st.solids + 96 + cfg.grid_size / 2 - st.current_y) / cfg.spacing⌉ : ℤ) ≤ 0 :=
    Int.toNat_eq_zero.1 h
  have hnum : (maxYB T st.solids + 96 + cfg.grid_size / 2 - st.current_y) / cfg.spacing ≤ 0 := by
    have := Int.ceil_le.1 hle
    simpa using this
  have hnum2 : maxYB T st.solids + 96 + cfg.grid_size / 2 - st.current_y ≤ 0 := by
    nlinarith [mul_le_mul_of_nonneg_right hnum (le_of_lt hsp),
      div_mul_cancel₀ (maxYB T st.solids + 96 + cfg.grid_size / 2 - st.current_y)
        (ne_of_gt hsp)]
  have hmem : (solidAABB T s).max_y ≤ maxYB T st.solids :=
    mem_le_pyMaxD _ _ (List.mem_map_of_mem _ hs)
  have hsnap := (snap_bounds cfg.grid_size st.current_y hg).1
  linarith

theorem dGap_le_kBound (cfg : Config) (T : Trig) (st : FlatState)
    (hsp : 0 < cfg.spacing)
    (hy : ∀ s ∈ st.solids,
      (solidAABB T s).max_y ≤ st.current_y + cfg.grid_size / 2 + 352) :
    dGap cfg T st ≤ kBound cfg := by
  by_cases hnil : st.solids = []
  · rw [dGap, if_pos hnil]; exact Nat.zero_le _
  · rw [dGap, if_neg hnil]
    have hmax : maxYB T st.solids ≤ st.current_y + cfg.grid_size / 2 + 352 := by
      refine pyMaxD_le _ _ (by simpa using hnil) ?_
      intro x hx
      obtain ⟨s, hs, rfl⟩ := List.mem_map.1 hx
      exact hy s hs
    refine Int.toNat_le_toNat (Int.ceil_le_ceil ?_)
    rw [div_le_div_iff_of_pos_right hsp]
    linarith

theorem dGap_decrease (cfg : Config) (T : Trig) (st st' : FlatState)
    (hsp : 0 < cfg.spacing)
    (hsol : st'.solids = st.solids)
    (hcy : st.current_y + cfg.spacing ≤ st'.current_y)
    (hpos : 1 ≤ dGap cfg T st) :
    dGap cfg T st' < dGap cfg T st := by
  have hnil : st.solids ≠ [] := by
    intro hn
    rw [dGap, if_pos hn] at hpos
    omega
  have hnil' : st'.solids ≠ [] := by rw [hsol]; exact hnil
  rw [dGap, if_neg hnil] at hpos
  rw [show dGap cfg T st' =
      (⌈(maxYB T st.solids + 96 + cfg.grid_size / 2 - st'.current_y) / cfg.spacing⌉).toNat from
    by rw [dGap, if_neg hnil', hsol]]
  rw [show dGap cfg T st =
      (⌈(maxYB T st.solids + 96 + cfg.grid_size / 2 - st.current_y) / cfg.spacing⌉).toNat from
    by rw [dGap, if_neg hnil]]
  have hstep : (maxYB T st.solids + 96 + cfg.grid_size / 2 - st'.current_y) / cfg.spacing ≤
      (maxYB T st.solids + 96 + cfg.grid_size / 2 - st.current_y) / cfg.spacing - 1 := by
    rw [le_sub_iff_add_le, div_add' _ _ _ (ne_of_gt hsp),
      div_le_div_iff_of_pos_right hsp]
    linarith
  have hceil : (⌈(maxYB T st.solids + 96 + cfg.grid_size / 2 - st'.current_y) / cfg.spacing⌉ : ℤ) ≤
      ⌈(maxYB T st.solids + 96 + cfg.grid_size / 2 - st.current_y) / cfg.spacing⌉ - 1 := by
    have h1 := Int.ceil_le_ceil hstep
    rwa [Int.ceil_sub_one] at h1
  omega

theorem flatRowCheck_y_of_end (cfg : Config) (st : FlatState)
    (h : st.blocks_in_current_row ≤ st.current_row_blocks) :
    (flatRowCheck cfg st).current_y =
      st.current_y +
        pyMaxD ((st.solids.drop (st.solids.length - st.current_row_blocks)).map
          fun s => s.size.2.1) 0 + cfg.spacing := by
  unfold flatRowCheck
  rw [if_pos h]

theorem flatRowCheck_y_ge (cfg : Config) (st : FlatState)
    (hsz : ∀ s ∈ st.solids, 0 ≤ s.size.2.1) (hsp : 0 ≤ cfg.spacing) :
    st.current_y ≤ (flatRowCheck cfg st).current_y := by
  unfold flatRowCheck
  split
  · have hmax : 0 ≤ pyMaxD ((st.solids.drop (st.solids.length - st.current_row_blocks)).map
        fun s => s.size.2.1) 0 := by
      refine pyMaxD_nonneg _ fun x hx => ?_
      obtain ⟨s, hs, rfl⟩ := List.mem_map.1 hx
      exact hsz s (List.mem_of_mem_drop hs)
    dsimp only
    linarith
  · exact le_refl _

/-- Each flat-mode loop iteration either places a collision-checked box or
abandons the row; in the latter case the very first (snapped, centred or
randomised) candidate of the iteration was already colliding. -/
theorem flatStep_cases (cfg : Config) (T : Trig) (st : FlatState) :
    (∃ (bx : ℚ) (r' : RNG),
      check_collision T (bx, snap_to_grid cfg.grid_size st.current_y,
          snap_to_grid cfg.grid_size cfg.start_pos.2.2)
        (selectBlockSize cfg st.rng).1 st.solids
        (get_rotation_angle cfg.rotation_mode
          (flatCandidateX cfg st.blocks_generated (selectBlockSize cfg st.rng).1
            (selectBlockSize cfg st.rng).2).2).1 = false ∧
      flatStep cfg T st = flatRowCheck cfg
        { st with
          solids := st.solids ++
            [⟨st.blocks_generated + 10,
              (bx, snap_to_grid cfg.grid_size st.current_y,
                snap_to_grid cfg.grid_size cfg.start_pos.2.2),
              (selectBlockSize cfg st.rng).1,
              (get_rotation_angle cfg.rotation_mode
                (flatCandidateX cfg st.blocks_generated (selectBlockSize cfg st.rng).1
                  (selectBlockSize cfg st.rng).2).2).1⟩],
          blocks_generated := st.blocks_generated + 1,
          current_row_blocks := st.current_row_blocks + 1,
          rng := r' }) ∨
    ((∃ (bx : ℚ),
      check_collision T (bx, snap_to_grid cfg.grid_size st.current_y,
          snap_to_grid cfg.grid_size cfg.start_pos.2.2)
        (selectBlockSize cfg st.rng).1 st.solids
        (get_rotation_angle cfg.rotation_mode
          (flatCandidateX cfg st.blocks_generated (selectBlockSize cfg st.rng).1
            (selectBlockSize cfg st.rng).2).2).1 = true) ∧
      ∃ (r' : RNG), flatStep cfg T st = flatRowCheck cfg
        { st with current_row_blocks := st.blocks_in_current_row, rng := r' }) := by
  by_cases h100 : 100 ≤ (flatRetryLoop cfg T
      (snap_to_grid cfg.grid_size st.current_y)
      (snap_to_grid cfg.grid_size cfg.start_pos.2.2)
      (selectBlockSize cfg st.rng).1 st.solids
      (get_rotation_angle cfg.rotation_mode
        (flatCandidateX cfg st.blocks_generated (selectBlockSize cfg st.rng).1
          (selectBlockSize cfg st.rng).2).2).1
      100 0
      (snap_to_grid cfg.grid_size
        (flatCandidateX cfg st.blocks_generated (selectBlockSize cfg st.rng).1
          (selectBlockSize cfg st.rng).2).1)
      (check_collision T
        (snap_to_grid cfg.grid_size
          (flatCandidateX cfg st.blocks_generated (selectBlockSize cfg st.rng).1
            (selectBlockSize cfg st.rng).2).1,
          snap_to_grid cfg.grid_size st.current_y,
          snap_to_grid cfg.grid_size cfg.start_pos.2.2)
        (selectBlockSize cfg st.rng).1 st.solids
        (get_rotation_angle cfg.rotation_mode
          (flatCandidateX cfg st.blocks_generated (selectBlockSize cfg st.rng).1
            (selectBlockSize cfg st.rng).2).2).1)
      (get_rotation_angle cfg.rotation_mode
        (flatCandidateX cfg st.blocks_generated (selectBlockSize cfg st.rng).1
          (selectBlockSize cfg st.rng).2).2).2).2.1
  · refine Or.inr ⟨⟨snap_to_grid cfg.grid_size
        (flatCandidateX cfg st.blocks_generated (selectBlockSize cfg st.rng).1
          (selectBlockSize cfg st.rng).2).1, ?_⟩,
      _, by rw [flatStep]; rw [if_pos h100]⟩
    cases hcol : check_collision T
        (snap_to_grid cfg.grid_size
          (flatCandidateX cfg st.blocks_generated (selectBlockSize cfg st.rng).1
            (selectBlockSize cfg st.rng).2).1,
          snap_to_grid cfg.grid_size st.current_y,
          snap_to_grid cfg.grid_size cfg.start_pos.2.2)
        (selectBlockSize cfg st.rng).1 st.solids
        (get_rotation_angle cfg.rotation_mode
          (flatCandidateX cfg st.blocks_generated (selectBlockSize cfg st.rng).1
            (selectBlockSize cfg st.rng).2).2).1 with
    | false =>
      rw [hcol, flatRetryLoop_entry_false] at h100
      simp at h100
    | true => rfl
  · exact Or.inl ⟨_, _, flat_placed_no_collision cfg T _ _ _ _ _ _ _ h100,
      by rw [flatStep]; rw [if_neg h100]⟩

theorem flatStep_invariant (cfg : Config) (T : Trig) (st : FlatState)
    (hc : GoodCfg cfg) (hinv : FlatLoopInv cfg T st)
    (hlt : st.blocks_generated < cfg.block_count) :
    FlatLoopInv cfg T (flatStep cfg T st) ∧
    flatPotential cfg T (flatStep cfg T st) < flatPotential cfg T st := by
  have hsp : 0 < cfg.spacing := lt_of_lt_of_le (by norm_num) hc.spacing_ge
  have hszsel : sizeOK (selectBlockSize cfg st.rng).1 :=
    selectBlockSize_sizeOK cfg st.rng hc.shapes_nil hc.types_ne hc.types_valid
  rcases flatStep_cases cfg T st with ⟨bx, r', hcol, heq⟩ | ⟨⟨bx, hcol⟩, r', heq⟩
  · -- a box was placed
    rw [heq]
    set b : Solid := ⟨st.blocks_generated + 10,
      (bx, snap_to_grid cfg.grid_size st.current_y,
        snap_to_grid cfg.grid_size cfg.start_pos.2.2),
      (selectBlockSize cfg st.rng).1,
      (get_rotation_angle cfg.rotation_mode
        (flatCandidateX cfg st.blocks_generated (selectBlockSize cfg st.rng).1
          (selectBlockSize cfg st.rng).2).2).1⟩ with hb
    set st1 : FlatState :=
      { st with
          solids := st.solids ++ [b]
          blocks_generated := st.blocks_generated + 1
          current_row_blocks := st.current_row_blocks + 1
          rng := r' } with hst1
    have hsizes1 : ∀ s ∈ st1.solids, sizeOK s.size := by
      intro s hs
      rcases List.mem_append.1 hs with hm | hm
      · exact hinv.sizes s hm
      · rcases List.mem_singleton.1 hm with rfl
        exact hszsel
    have hyge : st1.current_y ≤ (flatRowCheck cfg st1).current_y :=
      flatRowCheck_y_ge cfg st1 (fun s hs => (hsizes1 s hs).2.2.1) (by linarith)
    have hbbound : (solidAABB T b).max_y ≤ st.current_y + cfg.grid_size / 2 + 352 := by
      have h1 := (solidAABB_y_bounds T b hszsel.1 hszsel.2.2.1).2
      have h2 := (snap_bounds cfg.grid_size st.current_y hc.grid_pos).2
      have h3 : b.size.2.1 ≤ 256 := hszsel.2.2.2
      have h4 : b.size.1 ≤ 192 := hszsel.2.1
      have h5 : b.pos.2.1 = snap_to_grid cfg.grid_size st.current_y := rfl
      rw [h5] at h1
      linarith
    have hinv1 : FlatLoopInv cfg T (flatRowCheck cfg st1) := by
      refine ⟨?_, ?_, ?_, ?_⟩
      · rw [flatRowCheck_solids, flatRowCheck_gen]
        simp [hst1, hinv.len_eq]
      · rw [flatRowCheck_gen]
        exact hlt
      · rw [flatRowCheck_solids]
        exact hsizes1
      · rw [flatRowCheck_solids]
        intro s hs
        rcases List.mem_append.1 hs with hm | hm
        · have := hinv.ybound s hm
          have hy1 : st.current_y ≤ (flatRowCheck cfg st1).current_y := hyge
          linarith
        · rcases List.mem_singleton.1 hm with rfl
          have hy1 : st.current_y ≤ (flatRowCheck cfg st1).current_y := hyge
          linarith

    refine ⟨hinv1, ?_⟩
    have hd' : dGap cfg T (flatRowCheck cfg st1) ≤ kBound cfg :=
      dGap_le_kBound cfg T _ hsp hinv1.ybound
    unfold flatPotential
    rw [flatRowCheck_gen]
    have hg1 : st1.blocks_generated = st.blocks_generated + 1 := rfl
    rw [hg1]
    have hmul : (cfg.block_count - st.blocks_generated) * (kBound cfg + 1) =
        (cfg.block_count - (st.blocks_generated + 1)) * (kBound cfg + 1) +
          (kBound cfg + 1) := by
      have : cfg.block_count - st.blocks_generated =
          (cfg.block_count - (st.blocks_generated + 1)) + 1 := by omega
      rw [this, add_mul, one_mul]
    omega
  · -- the row was abandoned
    rw [heq]
    set st1 : FlatState :=
      { st with current_row_blocks := st.blocks_in_current_row, rng := r' } with hst1
    have hsolids : (flatRowCheck cfg st1).solids = st.solids := by
      rw [flatRowCheck_solids]
    have hgen : (flatRowCheck cfg st1).blocks_generated = st.blocks_generated := by
      rw [flatRowCheck_gen]
    have hyeq := flatRowCheck_y_of_end cfg st1 (le_refl _)
    have hmax0 : 0 ≤ pyMaxD ((st1.solids.drop
        (st1.solids.length - st1.current_row_blocks)).map fun s => s.size.2.1) 0 := by
      refine pyMaxD_nonneg _ fun x hx => ?_
      obtain ⟨s, hs, rfl⟩ := List.mem_map.1 hx
      exact (hinv.sizes s (List.mem_of_mem_drop hs)).2.2.1
    have hyadv : st.current_y + cfg.spacing ≤ (flatRowCheck cfg st1).current_y := by
      rw [hyeq]
      have : st1.current_y = st.current_y := rfl
      linarith
    have hinv1 : FlatLoopInv cfg T (flatRowCheck cfg st1) := by
      refine ⟨?_, ?_, ?_, ?_⟩
      · rw [hsolids, hgen]; exact hinv.len_eq
      · rw [hgen]; exact hinv.gen_le
      · rw [hsolids]; exact hinv.sizes
      · rw [hsolids]
        intro s hs
        have := hinv.ybound s hs
        linarith
    refine ⟨hinv1, ?_⟩
    have hd1 : 1 ≤ dGap cfg T st := by
      by_contra hz
      have hz0 : dGap cfg T st = 0 := by omega
      have hsafe := dGap_zero_safe cfg T st hc.grid_pos hsp hz0
      have := check_collision_far T bx
        (snap_to_grid cfg.grid_size st.current_y)
        (snap_to_grid cfg.grid_size cfg.start_pos.2.2)
        (selectBlockSize cfg st.rng).1 st.solids
        (get_rotation_angle cfg.rotation_mode
          (flatCandidateX cfg st.blocks_generated (selectBlockSize cfg st.rng).1
            (selectBlockSize cfg st.rng).2).2).1 hszsel hsafe
      rw [hcol] at this
      exact absurd this (by simp)
    have hdec : dGap cfg T (flatRowCheck cfg st1) < dGap cfg T st :=
      dGap_decrease cfg T st (flatRowCheck cfg st1) hsp hsolids hyadv hd1
    unfold flatPotential
    rw [hgen]
    omega

theorem flatAux_reaches (cfg : Config) (T : Trig) (hc : GoodCfg cfg) :
    ∀ (fuel : ℕ) (st : FlatState), FlatLoopInv cfg T st →
      flatPotential cfg T st ≤ fuel →
      (flatAux cfg T fuel st).blocks_generated = cfg.block_count ∧
      (flatAux cfg T fuel st).solids.length = cfg.block_count ∧
      ∀ f', fuel ≤ f' → flatAux cfg T f' st = flatAux cfg T fuel st := by
  intro fuel
  induction fuel with
  | zero =>
    intro st hinv hpot
    have hge : cfg.block_count ≤ st.blocks_generated := by
      unfold flatPotential at hpot
      have h0 : (cfg.block_count - st.blocks_generated) * (kBound cfg + 1) = 0 := by omega
      rcases Nat.mul_eq_zero.1 h0 with h | h
      · omega
      · omega
    have hgen : st.blocks_generated = cfg.block_count := le_antisymm hinv.gen_le hge
    exact ⟨hgen, by rw [show flatAux cfg T 0 st = st from rfl, hinv.len_eq]; exact hgen,
      fun f' _ => by rw [flatAux_of_ge cfg T f' st hge]; rfl⟩
  | succ fuel ih =>
    intro st hinv hpot
    by_cases hlt : st.blocks_generated < cfg.block_count
    · obtain ⟨hinv', hdec⟩ := flatStep_invariant cfg T st hc hinv hlt
      obtain ⟨hg, hlen, hstab⟩ := ih (flatStep cfg T st) hinv' (by omega)
      rw [flatAux, if_pos hlt]
      refine ⟨hg, hlen, fun f' hf' => ?_⟩
      obtain ⟨f'', rfl⟩ : ∃ f'', f' = f'' + 1 := ⟨f' - 1, by omega⟩
      rw [flatAux, if_pos hlt, hstab f'' (by omega)]
    · have hge : cfg.block_count ≤ st.blocks_generated := le_of_not_lt hlt
      have hgen := le_antisymm hinv.gen_le hge
      rw [flatAux, if_neg hlt]
      exact ⟨hgen, by rw [hinv.len_eq]; exact hgen,
        fun f' _ => flatAux_of_ge cfg T f' st hge⟩

/-- C10: for every configuration reachable through the public setters
(block count at least 1, spacing at least 50, path width at least 128, max
blocks per row in `[1, 10]`, a non-empty valid block-type list, a positive
grid size, legacy catalog in use) and for **every** random sequence, the
`generate_straight_line` loop terminates — the fuel-indexed runs stabilise
from some bound `N` on — and the stable output has exactly `block_count`
boxes: flat mode never under-fills, because each iteration either places a
box or strictly advances the row cursor by at least the spacing, which
eventually makes collisions impossible. -/
theorem c10_flat_termination (cfg : Config) (T : Trig) (r : RNG)
    (h1 : 1 ≤ cfg.block_count) (h2 : 50 ≤ cfg.spacing) (h3 : 128 ≤ cfg.path_width)
    (h4 : 1 ≤ cfg.max_blocks_per_row) (h5 : cfg.max_blocks_per_row ≤ 10)
    (h6 : cfg.block_types ≠ [])
    (h7 : ∀ t ∈ cfg.block_types, (BLOCK_SIZES.lookup t).isSome)
    (h8 : 0 < cfg.grid_size) (h9 : cfg.shapes = []) :
    ∃ N, ∀ fuel, N ≤ fuel →
      generate_straight_line cfg T r fuel = generate_straight_line cfg T r N ∧
      (generate_straight_line cfg T r N).length = cfg.block_count := by
  have hc : GoodCfg cfg := ⟨h1, h2, h3, h4, h5, h6, h7, h8, h9⟩
  have hinv : FlatLoopInv cfg T (flatInit cfg r) :=
    ⟨rfl, Nat.zero_le _, by simp [flatInit], by simp [flatInit]⟩
  obtain ⟨hg, hlen, hstab⟩ := flatAux_reaches cfg T hc
    (flatPotential cfg T (flatInit cfg r)) (flatInit cfg r) hinv (le_refl _)
  refine ⟨flatPotential cfg T (flatInit cfg r), fun fuel hf => ⟨?_, hlen⟩⟩
  unfold generate_straight_line
  rw [hstab fuel hf]

/-- Witness for C10: the default configuration satisfies every hypothesis. -/
theorem c10_flat_termination_witness :
    ∃ N, ∀ fuel, N ≤ fuel →
      generate_straight_line { } constTrig ⟨fun _ => 0, 0⟩ fuel =
        generate_straight_line { } constTrig ⟨fun _ => 0, 0⟩ N ∧
      (generate_straight_line { } constTrig ⟨fun _ => 0, 0⟩ N).length =
        ({ } : Config).block_count :=
  c10_flat_termination { } constTrig ⟨fun _ => 0, 0⟩ (by norm_num) (by norm_num)
    (by norm_num) (by norm_num) (by norm_num) (by decide) (by decide) (by norm_num) rfl

end VmfGen
